import Mathlib

/-!
Verification development for the EnvForge blueprint compiler.

The definitions below are a shallow embedding of the Python modules
`models.py`, `resource_db.py`, `contracts.py`, `validator.py`,
`dependency_resolver.py`, `yaml_renderer.py` and `conversation_engine.py`.
Python dictionaries are modelled as insertion-ordered association lists
with string keys (matching Python 3.7+ dict semantics: updating an
existing key keeps its position, a new key is appended).  Python values
stored in those dictionaries are modelled by the inductive type `Value`.
Code paths on which the Python program raises an exception (e.g. a
`TypeError` from descending through a non-dict in `_set_nested_value`,
or a `KeyError` in `_render_variables`) are modelled by `Option`, with
`none` standing for the raised exception.  Module-level lookup tables
(`PIPELINES`) that some functions read as globals are passed explicitly
as a parameter where a claim quantifies over their contents.
-/

/-- Model of a Python value as stored in the blueprint dictionaries:
strings, ints, booleans, `None`, lists and string-keyed dicts. -/
inductive Value where
  | vstr (s : String)
  | vint (n : Int)
  | vbool (b : Bool)
  | vnone
  | vlist (elems : List Value)
  | vdict (entries : List (String × Value))
deriving Repr

/-- Association-list lookup: first binding wins (Python dict keys are
unique, so this matches `d[k]` / `d.get(k)` presence). -/
def alGet {α : Type} : List (String × α) → String → Option α
  | [], _ => none
  | (k', v) :: rest, k => if k' = k then some v else alGet rest k

/-- Python `k in d`. -/
def alHasKey {α : Type} (d : List (String × α)) (k : String) : Bool :=
  (alGet d k).isSome

/-- Python `d[k] = v`: replace the first binding of `k` in place, else
append a new binding (insertion-ordered dict update). -/
def alSet {α : Type} : List (String × α) → String → α → List (String × α)
  | [], k, v => [(k, v)]
  | (k', v') :: rest, k, v =>
      if k' = k then (k', v) :: rest else (k', v') :: alSet rest k v

/-- Keys of an association list, in order. -/
def alKeys {α : Type} (d : List (String × α)) : List String :=
  d.map Prod.fst

/-- Python truthiness (`if not x`) of an optional stored value, where
`none` stands for a missing key / `None` result. -/
def pyTruthy : Option Value → Bool
  | none => false
  | some (.vstr s) => !s.toList.isEmpty
  | some (.vint n) => !(n == 0)
  | some (.vbool b) => b
  | some .vnone => false
  | some (.vlist l) => !l.isEmpty
  | some (.vdict d) => !d.isEmpty

mutual
/-- Python `repr` of a value (element rendering inside containers).
String escaping inside `repr` of exotic strings is not reproduced;
the program only ever renders plain identifier-like strings. -/
def pyRepr : Value → String
  | .vstr s => "\x27" ++ s ++ "\x27"
  | .vint n => toString n
  | .vbool b => if b then "True" else "False"
  | .vnone => "None"
  | .vlist l => "[" ++ pyReprList l ++ "]"
  | .vdict d => "\x7b" ++ pyReprDict d ++ "\x7d"

def pyReprList : List Value → String
  | [] => ""
  | [v] => pyRepr v
  | v :: rest => pyRepr v ++ ", " ++ pyReprList rest

def pyReprDict : List (String × Value) → String
  | [] => ""
  | [(k, v)] => "\x27" ++ k ++ "\x27: " ++ pyRepr v
  | (k, v) :: rest => "\x27" ++ k ++ "\x27: " ++ pyRepr v ++ ", " ++ pyReprDict rest
end

/-- Python `str()` of a value (top-level: strings unquoted). -/
def pyStr : Value → String
  | .vstr s => s
  | v => pyRepr v

/-- Python `path.split(".")` (on a non-empty separator). -/
def splitOnDotGo : List Char → List Char → List String
  | [], acc => [String.mk acc.reverse]
  | c :: rest, acc =>
      if c = '.' then String.mk acc.reverse :: splitOnDotGo rest []
      else splitOnDotGo rest (c :: acc)

def splitOnDot (s : String) : List String :=
  splitOnDotGo s.toList []

/-- Python `s.startswith(p)`. -/
def strStartsWith (s p : String) : Bool :=
  p.toList.isPrefixOf s.toList

/-- Python `s.endswith(p)`. -/
def strEndsWith (s p : String) : Bool :=
  p.toList.reverse.isPrefixOf s.toList.reverse

def strReplaceAllGo : Nat → List Char → List Char → List Char → List Char
  | 0, s, _, _ => s
  | _, [], _, _ => []
  | fuel + 1, c :: rest, pat, rep =>
      if pat.isPrefixOf (c :: rest) then
        rep ++ strReplaceAllGo fuel ((c :: rest).drop pat.length) pat rep
      else
        c :: strReplaceAllGo fuel rest pat rep

/-- Python `s.replace(pat, rep)` — every (non-overlapping, left-to-right)
occurrence is replaced.  The program never calls it with an empty
pattern, for which this returns `s` unchanged. -/
def strReplaceAll (s pat rep : String) : String :=
  if pat.toList.isEmpty then s
  else String.mk (strReplaceAllGo s.toList.length s.toList pat.toList rep.toList)

/-- Python `s.strip()`. -/
def strTrim (s : String) : String :=
  String.mk (((s.toList.dropWhile Char.isWhitespace).reverse.dropWhile Char.isWhitespace).reverse)

/-- Non-greedy capture of `re.findall` body: after the opening
delimiter, `(.+?)` consumes at least one non-newline character and the
engine tries to match the closing braces at every subsequent position. -/
def scanCaptureGo : List Char → List Char → Option (List Char × List Char)
  | acc, '}' :: '}' :: rest => some (acc.reverse, rest)
  | acc, c :: rest => if c = '\n' then none else scanCaptureGo (c :: acc) rest
  | _, [] => none

def scanCapture : List Char → Option (List Char × List Char)
  | [] => none
  | c :: rest => if c = '\n' then none else scanCaptureGo [c] rest

def findExprsGo : Nat → List Char → List String
  | 0, _ => []
  | _, [] => []
  | fuel + 1, '$' :: '{' :: '{' :: rest =>
      match scanCapture rest with
      | some (cap, rem) => String.mk cap :: findExprsGo fuel rem
      | none => findExprsGo fuel ('{' :: '{' :: rest)
  | fuel + 1, _ :: rest => findExprsGo fuel rest

/-- Model of `re.findall(r'\$\{\{(.+?)\}\}', s)` from
`_validate_variable_expressions`. -/
def findExprs (s : String) : List String :=
  findExprsGo s.toList.length s.toList

/-- `_get_nested_value` walk: descend one key at a time; a missing key,
a stored `None`, or a non-dict intermediate yields `None`. -/
def getNestedGo : Value → List String → Option Value
  | v, [] => some v
  | .vdict d, k :: rest =>
      match alGet d k with
      | none => none
      | some .vnone => none
      | some v => getNestedGo v rest
  | _, _ :: _ => none

/-- `_get_nested_value(data, path)` from `validator.py` /
`dependency_resolver.py` (identical helper in both modules). -/
def get_nested_value (d : List (String × Value)) (path : String) : Option Value :=
  getNestedGo (.vdict d) (splitOnDot path)

/-- `_set_nested_value(data, keys, value)`: creates intermediate dicts
for missing keys; descending through an existing non-dict raises a
`TypeError` in Python, modelled as `none`. -/
def setNestedGo : List (String × Value) → List String → Value → Option (List (String × Value))
  | _, [], _ => none
  | d, [k], v => some (alSet d k v)
  | d, k :: k' :: rest, v =>
      match alGet d k with
      | some (.vdict sub) =>
          (setNestedGo sub (k' :: rest) v).map (fun sub' => alSet d k (.vdict sub'))
      | some _ => none
      | none =>
          (setNestedGo [] (k' :: rest) v).map (fun sub' => alSet d k (.vdict sub'))

/-- `_set_nested_value(data, path, value)` with the dot-path split. -/
def set_nested_value (d : List (String × Value)) (path : String) (v : Value) :
    Option (List (String × Value)) :=
  setNestedGo d (splitOnDot path) v

/-! ## models.py -/

/-- `models.Entity`: `steps` maps a step name to that step's dict. -/
structure Entity where
  id : String
  backend_type : String
  inputs : List (String × Value)
  values : List (String × Value)
  steps : List (String × List (String × Value))
  dependencies : List String
deriving Repr

/-- `models.BlueprintGraph`. -/
structure BlueprintGraph where
  global_inputs : List (String × Value)
  entities : List (String × Entity)
deriving Repr

/-- `models.MissingRequirement`. -/
structure MissingRequirement where
  entity_id : String
  path : String
  reason : String
  options : Option (List String)
deriving Repr, DecidableEq

/-! ## resource_db.py -/

/-- An input declaration of a template or pipeline
(`\x7b"type": ..., "required": ..., "default": ...\x7d`). -/
structure InputSpec where
  type : String
  required : Bool
  default : Option Value
deriving Repr

structure IacmTemplate where
  template_id : String
  inputs : List (String × InputSpec)
  outputs : List (String × String)
deriving Repr

structure Infrastructure where
  infra_id : String
  required_bindings : List String
deriving Repr, DecidableEq

structure CdEnvironment where
  environment_id : String
  infrastructures : List Infrastructure
deriving Repr, DecidableEq

structure Pipeline where
  pipeline_id : String
  backend_type : String
  inputs : List (String × InputSpec)
deriving Repr

def IACM_TEMPLATES : List (String × IacmTemplate) :=
  [("TempNamespace",
    { template_id := "TempNamespace"
      inputs := [("name", { type := "string", required := true, default := none })]
      outputs := [("name", "string")] })]

def CD_ENVIRONMENTS : List (String × CdEnvironment) :=
  [("mycluster",
    { environment_id := "mycluster"
      infrastructures := [{ infra_id := "ssemteamdelegate", required_bindings := ["namespace"] }] })]

def PIPELINES : List (String × Pipeline) :=
  [("RunIaCM", { pipeline_id := "RunIaCM", backend_type := "HarnessIACM", inputs := [] }),
   ("DestroyIaCM", { pipeline_id := "DestroyIaCM", backend_type := "HarnessIACM", inputs := [] }),
   ("DeployService", { pipeline_id := "DeployService", backend_type := "Catalog", inputs := [] }),
   ("UninstallService", { pipeline_id := "UninstallService", backend_type := "Catalog", inputs := [] })]

def get_iacm_template (template_id : String) : Option IacmTemplate :=
  alGet IACM_TEMPLATES template_id

def get_cd_environment (environment_id : String) : Option CdEnvironment :=
  alGet CD_ENVIRONMENTS environment_id

def get_infrastructure (environment_id infra_id : String) : Option Infrastructure :=
  match get_cd_environment environment_id with
  | none => none
  | some env => env.infrastructures.find? (fun i => i.infra_id == infra_id)

/-- `get_pipeline`, with the `PIPELINES` table passed explicitly. -/
def get_pipeline (pipelines : List (String × Pipeline)) (pipeline_id : String) : Option Pipeline :=
  alGet pipelines pipeline_id

/-! ## contracts.py -/

/-- One step entry of a backend contract.  `variables_source` models the
`"variables"` field: `none` for `None`, `some "pipeline"` for
`\x7b"source": "pipeline"\x7d`. -/
structure StepContract where
  required : Bool
  fields : List String
  variables_source : Option String
deriving Repr, DecidableEq

structure BackendContract where
  backend_type : String
  required_values : List String
  steps : List (String × StepContract)
deriving Repr, DecidableEq

def HarnessIACM_CONTRACT : BackendContract :=
  { backend_type := "HarnessIACM"
    required_values := ["values.workspace"]
    steps :=
      [("create", { required := true, fields := ["template", "version"], variables_source := none }),
       ("apply", { required := true, fields := ["pipeline"], variables_source := some "pipeline" }),
       ("destroy", { required := true, fields := ["pipeline"], variables_source := some "pipeline" }),
       ("delete", { required := false, fields := [], variables_source := none })] }

def Catalog_CONTRACT : BackendContract :=
  { backend_type := "Catalog"
    required_values :=
      ["values.identifier", "values.environment.identifier", "values.environment.infra.identifier"]
    steps :=
      [("apply", { required := true, fields := ["pipeline"], variables_source := some "pipeline" }),
       ("destroy", { required := true, fields := ["pipeline"], variables_source := some "pipeline" })] }

def BACKEND_CONTRACTS : List (String × BackendContract) :=
  [("HarnessIACM", HarnessIACM_CONTRACT), ("Catalog", Catalog_CONTRACT)]

def get_backend_contract (backend_type : String) : Option BackendContract :=
  alGet BACKEND_CONTRACTS backend_type

/-! ## validator.py -/

/-- `any(v.get("name") == input_name for v in variables if isinstance(v, dict))`
over a stored `variables` value.  A non-list value yields `false`
(Python iterates strings/dicts producing no dict elements; a
non-iterable value would raise, which no reachable state produces). -/
def varsAnyName (vrs : Value) (input_name : String) : Bool :=
  match vrs with
  | .vlist l =>
      l.any (fun v =>
        match v with
        | .vdict d =>
            match alGet d "name" with
            | some (.vstr s) => s == input_name
            | _ => false
        | _ => false)
  | _ => false

/-- `_validate_backend_contract(entity_id, entity)`. -/
def validate_backend_contract (entity_id : String) (entity : Entity) :
    List MissingRequirement :=
  match get_backend_contract entity.backend_type with
  | none =>
      [{ entity_id := entity_id, path := "backend_type"
         reason := "Unknown backend type: " ++ entity.backend_type, options := none }]
  | some contract =>
      let valueFindings := contract.required_values.filterMap (fun rvp =>
        -- `rvp.replace("values.", "", 1)` under the startswith guard is
        -- exactly "drop the prefix"
        let path_in_values :=
          if strStartsWith rvp "values." then String.mk (rvp.toList.drop "values.".length)
          else rvp
        if pyTruthy (get_nested_value entity.values path_in_values) then none
        else some { entity_id := entity_id, path := rvp
                    reason := "Required value \x27" ++ rvp ++ "\x27 is missing"
                    options := none })
      let stepFindings := (contract.steps.map (fun sc =>
        if sc.2.required then
          match alGet entity.steps sc.1 with
          | none =>
              [{ entity_id := entity_id, path := "steps." ++ sc.1
                 reason := "Required step \x27" ++ sc.1 ++ "\x27 is missing"
                 options := none }]
          | some step_data =>
              sc.2.fields.filterMap (fun f =>
                if alHasKey step_data f then none
                else some { entity_id := entity_id
                            path := "steps." ++ sc.1 ++ "." ++ f
                            reason := "Required field \x27" ++ f ++ "\x27 in step \x27" ++
                                      sc.1 ++ "\x27 is missing"
                            options := none })
        else [])).flatten
      valueFindings ++ stepFindings

/-- `_validate_pipelines(entity_id, entity, graph)`: unknown pipeline ids
produce a finding (with the backend's available pipelines as options)
and skip input checking; known pipelines have their required inputs
checked against step variables. -/
def validate_pipelines_step (pipelines : List (String × Pipeline)) (entity_id : String)
    (entity : Entity) (sp : String × List (String × Value)) : List MissingRequirement :=
  (match alGet sp.2 "pipeline" with
    | none => []
    | some pv =>
        let pl := match pv with
          | .vstr s => get_pipeline pipelines s
          | _ => none
        match pl with
        | none =>
            let available :=
              (pipelines.filter (fun q => q.2.backend_type == entity.backend_type)).map
                Prod.fst
            [{ entity_id := entity_id
               path := "steps." ++ sp.1 ++ ".pipeline"
               reason := "Pipeline \x27" ++ pyStr pv ++ "\x27 does not exist"
               options := if available.isEmpty then none else some available }]
        | some pipeline =>
            pipeline.inputs.filterMap (fun ispec =>
              if ispec.2.required then
                let vrs := (alGet sp.2 "variables").getD (.vlist [])
                if !varsAnyName vrs ispec.1 && ispec.2.default.isNone then
                  some { entity_id := entity_id
                         path := "steps." ++ sp.1 ++ ".variables." ++ ispec.1
                         reason := "Pipeline \x27" ++ pyStr pv ++ "\x27 requires input \x27" ++
                                   ispec.1 ++ "\x27"
                         options := none }
                else none
              else none))

/-- The step loop of `_validate_pipelines(entity_id, entity, graph)`. -/
def validate_pipelines (pipelines : List (String × Pipeline)) (entity_id : String)
    (entity : Entity) : List MissingRequirement :=
  (entity.steps.map (validate_pipelines_step pipelines entity_id entity)).flatten

/-- `_validate_single_expression(entity_id, entity, graph, expr,
allowed_sources, step_name, var_name)`. -/
def validate_single_expression (entity_id : String) (entity : Entity)
    (graph : BlueprintGraph) (expr : String) (allowed_sources : List String)
    (step_name var_name : String) : List MissingRequirement :=
  if strStartsWith expr "env.config." then
    if !allowed_sources.contains "env.config" then
      [{ entity_id := entity_id, path := "steps." ++ step_name ++ ".variables"
         reason := "Variable \x27" ++ var_name ++
                   "\x27 uses \x27env.config\x27 which is not allowed for this step"
         options := none }]
    else
      let config_key := strReplaceAll expr "env.config." ""
      if !alHasKey graph.global_inputs config_key then
        [{ entity_id := entity_id, path := expr
           reason := "Global input \x27" ++ config_key ++ "\x27 referenced in variable \x27" ++
                     var_name ++ "\x27 does not exist"
           options := none }]
      else []
  else if strStartsWith expr "entity.config." then
    if !allowed_sources.contains "entity.config" then
      [{ entity_id := entity_id, path := "steps." ++ step_name ++ ".variables"
         reason := "Variable \x27" ++ var_name ++
                   "\x27 uses \x27entity.config\x27 which is not allowed for this step"
         options := none }]
    else
      let config_key := strReplaceAll expr "entity.config." ""
      if !alHasKey entity.inputs config_key then
        [{ entity_id := entity_id, path := expr
           reason := "Entity input \x27" ++ config_key ++ "\x27 referenced in variable \x27" ++
                     var_name ++ "\x27 does not exist"
           options := none }]
      else []
  else if strStartsWith expr "dependencies." then
    if !allowed_sources.contains "dependencies" then
      [{ entity_id := entity_id, path := "steps." ++ step_name ++ ".variables"
         reason := "Variable \x27" ++ var_name ++
                   "\x27 uses \x27dependencies\x27 which is not allowed for this step"
         options := none }]
    else
      match splitOnDot expr with
      | _ :: dep_id :: p2 :: output_field :: _ =>
          if p2 == "output" then
            if !entity.dependencies.contains dep_id then
              [{ entity_id := entity_id, path := expr
                 reason := "Dependency \x27" ++ dep_id ++ "\x27 referenced in variable \x27" ++
                           var_name ++ "\x27 is not declared in entity dependencies"
                 options := none }]
            else
              match alGet graph.entities dep_id with
              | none =>
                  [{ entity_id := entity_id, path := expr
                     reason := "Dependency entity \x27" ++ dep_id ++
                               "\x27 does not exist in the graph"
                     options := none }]
              | some dep_entity =>
                  if dep_entity.backend_type == "HarnessIACM" then
                    match alGet dep_entity.steps "create" with
                    | none => []
                    | some create_data =>
                        let tv := alGet create_data "template"
                        if pyTruthy tv then
                          match (match tv with
                                 | some (.vstr s) => get_iacm_template s
                                 | _ => none) with
                          | some template =>
                              if !alHasKey template.outputs output_field then
                                [{ entity_id := entity_id, path := expr
                                   reason := "Output field \x27" ++ output_field ++
                                             "\x27 does not exist in dependency \x27" ++ dep_id ++
                                             "\x27 template outputs"
                                   options := none }]
                              else []
                          | none => []
                        else []
                  else []
          else []
      | _ => []
  else []

/-- `_validate_variable_expressions(entity_id, entity, graph)`. -/
def validate_variable_expressions (entity_id : String) (entity : Entity)
    (graph : BlueprintGraph) : List MissingRequirement :=
  match get_backend_contract entity.backend_type with
  | none => []
  | some contract =>
      (entity.steps.map (fun sp =>
        if !alHasKey sp.2 "variables" then []
        else
          let variables_source :=
            match alGet contract.steps sp.1 with
            | some sc => sc.variables_source
            | none => none
          let allowed_sources :=
            if variables_source == some "pipeline" then
              ["env.config", "entity.config", "dependencies"]
            else []
          match alGet sp.2 "variables" with
          | some (Value.vlist vars) =>
              (vars.map (fun v =>
                match v with
                | .vdict d =>
                    let var_value := (alGet d "value").getD (.vstr "")
                    let var_name := pyStr ((alGet d "name").getD (.vstr "unknown"))
                    ((findExprs (pyStr var_value)).map (fun e =>
                      validate_single_expression entity_id entity graph (strTrim e)
                        allowed_sources sp.1 var_name)).flatten
                | _ => [])).flatten
          | _ => [])).flatten

/-- `list(entity.inputs.keys())` as rendered inside the IaCM
entity-level-inputs finding. -/
def pyKeysRepr (keys : List String) : String :=
  "[" ++ String.intercalate ", " (keys.map (fun k => "\x27" ++ k ++ "\x27")) ++ "]"

/-- `_validate_iacm_entity(entity_id, entity)`. -/
def validate_iacm_entity (entity_id : String) (entity : Entity) :
    List MissingRequirement :=
  let inputFindings :=
    if !entity.inputs.isEmpty then
      [{ entity_id := entity_id, path := "inputs"
         reason := "IaCM entities cannot have entity-level inputs. Found: " ++
                   pyKeysRepr (alKeys entity.inputs) ++
                   ". IaCM template inputs must be wired via pipeline variables referencing env.config or dependencies."
         options := none }]
    else []
  let createFindings :=
    match alGet entity.steps "create" with
    | none => []
    | some create_data =>
        let tv := alGet create_data "template"
        if !pyTruthy tv then
          [{ entity_id := entity_id, path := "steps.create.template"
             reason := "Template ID is required for create step", options := none }]
        else
          match (match tv with
                 | some (.vstr s) => get_iacm_template s
                 | _ => none) with
          | none =>
              let ks := alKeys IACM_TEMPLATES
              [{ entity_id := entity_id, path := "steps.create.template"
                 reason := "Template \x27" ++ pyStr (tv.getD .vnone) ++ "\x27 does not exist"
                 options := if ks.isEmpty then none else some ks }]
          | some template =>
              if alHasKey entity.steps "apply" then
                template.inputs.filterMap (fun ispec =>
                  if ispec.2.required then
                    let wired := ["apply", "destroy"].any (fun sn =>
                      match alGet entity.steps sn with
                      | some sd => varsAnyName ((alGet sd "variables").getD (.vlist [])) ispec.1
                      | none => false)
                    if !wired then
                      some { entity_id := entity_id
                             path := "steps.apply.variables." ++ ispec.1
                             reason := "Required template input \x27" ++ ispec.1 ++
                                       "\x27 must be wired as pipeline variable"
                             options := none }
                    else none
                  else none)
              else []
  inputFindings ++ createFindings

/-- `_validate_catalog_entity(entity_id, entity, graph)`.  Note: the
required-bindings loop of the source is a no-op (`pass`), so no finding
is ever produced for an unpopulated required binding. -/
def validate_catalog_entity (entity_id : String) (entity : Entity) :
    List MissingRequirement :=
  let env_idv := get_nested_value entity.values "environment.identifier"
  if !pyTruthy env_idv then []
  else
    match (match env_idv with
           | some (.vstr s) => get_cd_environment s
           | _ => none) with
    | none =>
        [{ entity_id := entity_id, path := "values.environment.identifier"
           reason := "Environment \x27" ++ pyStr (env_idv.getD .vnone) ++ "\x27 does not exist"
           options := none }]
    | some _env =>
        let infra_idv := get_nested_value entity.values "environment.infra.identifier"
        if !pyTruthy infra_idv then []
        else
          match (match env_idv, infra_idv with
                 | some (.vstr e), some (.vstr i) => get_infrastructure e i
                 | _, _ => none) with
          | none =>
              [{ entity_id := entity_id, path := "values.environment.infra.identifier"
                 reason := "Infrastructure \x27" ++ pyStr (infra_idv.getD .vnone) ++
                           "\x27 does not exist in environment \x27" ++
                           pyStr (env_idv.getD .vnone) ++ "\x27"
                 options := none }]
          | some _infra => []

/-- `_validate_resource_specific(entity_id, entity, graph)`. -/
def validate_resource_specific (entity_id : String) (entity : Entity) :
    List MissingRequirement :=
  if entity.backend_type == "HarnessIACM" then validate_iacm_entity entity_id entity
  else if entity.backend_type == "Catalog" then validate_catalog_entity entity_id entity
  else []

/-- `validate_graph(graph)` (the `PIPELINES` table is passed
explicitly; the source reads it as a module global). -/
def validate_entity (pipelines : List (String × Pipeline)) (graph : BlueprintGraph)
    (ee : String × Entity) : List MissingRequirement :=
  validate_backend_contract ee.1 ee.2 ++
  validate_pipelines pipelines ee.1 ee.2 ++
  validate_variable_expressions ee.1 ee.2 graph ++
  validate_resource_specific ee.1 ee.2

def validate_graph (pipelines : List (String × Pipeline)) (graph : BlueprintGraph) :
    List MissingRequirement :=
  (graph.entities.map (validate_entity pipelines graph)).flatten

/-! ## dependency_resolver.py -/

/-- `_find_compatible_output(entity, graph, required_binding)`: first
declared dependency whose known template offers a compatible output
wins; a `namespace` binding specially accepts an output named `name`
(preferred) or `namespace`; otherwise the binding name must match an
output exactly. -/
def find_compatible_output (entity : Entity) (graph : BlueprintGraph)
    (required_binding : String) : Option String :=
  entity.dependencies.findSome? (fun dep_id =>
    match alGet graph.entities dep_id with
    | none => none
    | some dep_entity =>
        if dep_entity.backend_type != "HarnessIACM" then none
        else
          match alGet dep_entity.steps "create" with
          | none => none
          | some create_data =>
              let tv := alGet create_data "template"
              if !pyTruthy tv then none
              else
                match (match tv with
                       | some (.vstr s) => get_iacm_template s
                       | _ => none) with
                | none => none
                | some template =>
                    let outputs := template.outputs
                    if required_binding == "namespace" && alHasKey outputs "name" then
                      some ("$\x7b\x7bdependencies." ++ dep_id ++ ".output.name\x7d\x7d")
                    else if required_binding == "namespace" && alHasKey outputs "namespace" then
                      some ("$\x7b\x7bdependencies." ++ dep_id ++ ".output.namespace\x7d\x7d")
                    else if alHasKey outputs required_binding then
                      some ("$\x7b\x7bdependencies." ++ dep_id ++ ".output." ++
                            required_binding ++ "\x7d\x7d")
                    else none)

/-- The required-bindings loop of `auto_wire_dependencies` for one
entity: skip already-populated bindings, else try to auto-wire; a
successful match writes the expression under
`environment.infra.<binding>` (threading the updated values). -/
def autoWireBindings (graph : BlueprintGraph) : Entity → List String → Option Entity
  | e, [] => some e
  | e, rb :: rest =>
      if pyTruthy (get_nested_value e.values ("environment.infra." ++ rb)) then
        autoWireBindings graph e rest
      else
        match find_compatible_output e graph rb with
        | none => autoWireBindings graph e rest
        | some expr =>
            match set_nested_value e.values ("environment.infra." ++ rb) (.vstr expr) with
            | none => none
            | some values' => autoWireBindings graph { e with values := values' } rest

/-- The body of `auto_wire_dependencies` for one entity. -/
def autoWireEntity (graph : BlueprintGraph) (e : Entity) : Option Entity :=
  if e.backend_type != "Catalog" then some e
  else
    let env_idv := get_nested_value e.values "environment.identifier"
    let infra_idv := get_nested_value e.values "environment.infra.identifier"
    if !pyTruthy env_idv || !pyTruthy infra_idv then some e
    else
      match (match env_idv, infra_idv with
             | some (.vstr ev), some (.vstr iv) => get_infrastructure ev iv
             | _, _ => none) with
      | none => some e
      | some infra => autoWireBindings graph e infra.required_bindings

/-- Iteration of `auto_wire_dependencies` over the entity dict: each
entity's values are updated in place before the next entity is
visited. -/
def autoWireGo : List String → BlueprintGraph → Option BlueprintGraph
  | [], g => some g
  | eid :: rest, g =>
      match alGet g.entities eid with
      | none => autoWireGo rest g
      | some e =>
          match autoWireEntity g e with
          | none => none
          | some e' => autoWireGo rest { g with entities := alSet g.entities eid e' }

/-- `auto_wire_dependencies(graph)` from `dependency_resolver.py`. -/
def auto_wire_dependencies (graph : BlueprintGraph) : Option BlueprintGraph :=
  autoWireGo (alKeys graph.entities) graph

/-! ## yaml_renderer.py -/

/-- Option-valued map over a list (explicit recursion so that proofs
can unfold it step by step): `none` as soon as one element fails. -/
def mapMOpt {a b : Type} (f : a → Option b) : List a → Option (List b)
  | [] => some []
  | x :: xs =>
      match f x with
      | none => none
      | some y =>
          match mapMOpt f xs with
          | none => none
          | some ys => some (y :: ys)

/-- `_infer_type(value)`. -/
def infer_type : Value → String
  | .vbool _ => "boolean"
  | .vint _ => "integer"
  | .vstr _ => "string"
  | .vlist _ => "array"
  | .vdict _ => "object"
  | .vnone => "string"

/-- `_render_variables(variables)`: each element must be a dict with
`name` and `value` keys (otherwise Python raises, modelled `none`); an
empty string/dict iterates zero times.  The stored `value` is emitted
unchanged. -/
def render_variables (vrs : Value) : Option (List Value) :=
  match vrs with
  | .vlist l =>
      mapMOpt (fun v =>
        match v with
        | .vdict d =>
            match alGet d "name", alGet d "value" with
            | some n, some val => some (Value.vdict [("name", n), ("value", val)])
            | _, _ => none
        | _ => none) l
  | .vstr s => if s.toList.isEmpty then some [] else none
  | .vdict d => if d.isEmpty then some [] else none
  | _ => none

/-- `_render_steps(steps)`. -/
def render_steps (steps : List (String × List (String × Value))) :
    Option (List (String × Value)) :=
  mapMOpt (fun sp =>
    (mapMOpt (fun kv =>
      if kv.1 == "variables" then
        (render_variables kv.2).map (fun rv => (kv.1, Value.vlist rv))
      else some kv) sp.2).map (fun rsd => (sp.1, Value.vdict rsd))) steps

/-- `_render_backend(entity)`. -/
def render_backend (entity : Entity) : Option Value :=
  let valuesPart : List (String × Value) :=
    if !entity.values.isEmpty then [("values", .vdict entity.values)] else []
  if entity.steps.isEmpty then some (.vdict valuesPart)
  else
    (render_steps entity.steps).map (fun rs =>
      .vdict (valuesPart ++ [("steps", .vdict rs)]))

/-- `_render_interface_inputs(entity)`. -/
def render_interface_inputs (entity : Entity) : Value :=
  .vdict (entity.inputs.map (fun nv =>
    let tspec : List (String × Value) :=
      [("type", .vstr (match nv.2 with | .vnone => "string" | v => infer_type v))]
    let isVarRef := match nv.2 with
      | .vstr s => strStartsWith s "$\x7b\x7b"
      | _ => false
    let withDefault :=
      match nv.2 with
      | .vnone => tspec
      | v => if isVarRef then tspec else tspec ++ [("default", v)]
    (nv.1, Value.vdict withDefault)))

/-- One entity entry of `_render_entities`. -/
def render_entity (entity : Entity) : Option Value :=
  (render_backend entity).map (fun be =>
    let base : List (String × Value) :=
      [("id", .vstr entity.id), ("type", .vstr entity.backend_type), ("backend", be)]
    let interfaceInputs : List (String × Value) :=
      if !entity.inputs.isEmpty && entity.backend_type == "Catalog" then
        [("inputs", render_interface_inputs entity)]
      else []
    let interfaceDeps : List (String × Value) :=
      if !entity.dependencies.isEmpty then
        [("dependencies",
          .vlist (entity.dependencies.map (fun d => Value.vdict [("identifier", .vstr d)])))]
      else []
    let interface := interfaceInputs ++ interfaceDeps
    .vdict (if interface.isEmpty then base else base ++ [("interface", .vdict interface)]))

/-- `_render_entities(graph)`. -/
def render_entities (graph : BlueprintGraph) : Option (List Value) :=
  mapMOpt (fun ee => render_entity ee.2) graph.entities

/-- `_render_global_inputs(graph)`. -/
def render_global_inputs (graph : BlueprintGraph) : List Value :=
  graph.global_inputs.map (fun nv =>
    match nv.2 with
    | .vnone => Value.vdict [("name", .vstr nv.1), ("type", .vstr "string")]
    | v => Value.vdict [("name", .vstr nv.1), ("type", .vstr (infer_type v)), ("default", v)])

/-- `render_yaml(graph)` up to the structure handed to `yaml.dump`
(the YAML serialisation itself is not modelled; every claim about the
renderer concerns the structure and the strings placed in it). -/
def render_yaml_dict (graph : BlueprintGraph) : Option Value :=
  (render_entities graph).map (fun es =>
    Value.vdict [("blueprint",
      Value.vdict [("name", .vstr "generated_blueprint"),
                   ("inputs", .vlist (render_global_inputs graph)),
                   ("entities", .vlist es)])])

/-! ## conversation_engine.py -/

/-- Python `value is None`. -/
def isVNone : Value → Bool
  | .vnone => true
  | _ => false

/-- A structured update as consumed by `_apply_update` (the
`classification` defaults to `"literal"` at the call sites via
`update.get("classification", "literal")`). -/
structure Update where
  entity_id : String
  path : String
  value : Value
  classification : String
deriving Repr

/-- Upsert-by-name into a step's variable list: the first dict entry
whose `name` equals `input_name` gets its `value` replaced, otherwise a
fresh `\x7bname, value\x7d` dict is appended; non-dict entries are
skipped. -/
def upsertVar (vars : List Value) (input_name expr : String) : List Value :=
  match vars with
  | [] => [.vdict [("name", .vstr input_name), ("value", .vstr expr)]]
  | v :: rest =>
      match v with
      | .vdict d =>
          if (match alGet d "name" with
              | some (.vstr s) => s == input_name
              | _ => false) then
            Value.vdict (alSet d "value" (.vstr expr)) :: rest
          else v :: upsertVar rest input_name expr
      | _ => v :: upsertVar rest input_name expr

/-- Wire one lifecycle step (`apply` or `destroy`) with a template
input variable, as in the `steps.<s>.variables.<input>` branch of
`_apply_update`: only steps that already exist are touched; a
`variables` entry is created if missing; a present non-list `variables`
value makes Python raise on `.append` (modelled `none`). -/
def wireLifecycleStep (e : Entity) (step_name input_name expr : String) : Option Entity :=
  match alGet e.steps step_name with
  | none => some e
  | some sd =>
      let sd1 := if !alHasKey sd "variables" then alSet sd "variables" (.vlist []) else sd
      match (alGet sd1 "variables").getD (.vlist []) with
      | .vlist vars =>
          some { e with steps := (alSet e.steps step_name
            (alSet sd1 "variables" (.vlist (upsertVar vars input_name expr)))) }
      | _ => none

/-- Replace one entity in the graph. -/
def setEntity (g : BlueprintGraph) (eid : String) (e : Entity) : BlueprintGraph :=
  { g with entities := alSet g.entities eid e }

/-- The dispatch section of `_apply_update` (everything after the
`variable_reference` / `blueprint_input` early returns). -/
def applyUpdateDispatch (g : BlueprintGraph) (eid : String) (entity : Entity)
    (path : String) (value : Value) (classification : String) : Option BlueprintGraph :=
  if strStartsWith path "env.config." then
    let config_key := strReplaceAll path "env.config." ""
    if classification == "literal" || !isVNone value then
      some { g with global_inputs := alSet g.global_inputs config_key value }
    else
      some { g with global_inputs := alSet g.global_inputs config_key .vnone }
  else if strStartsWith path "config." then
    let config_key := strReplaceAll path "config." ""
    some (setEntity g eid { entity with inputs := alSet entity.inputs config_key value })
  else if strStartsWith path "values." then
    (set_nested_value entity.values (strReplaceAll path "values." "") value).map
      (fun values' => setEntity g eid { entity with values := values' })
  else if strStartsWith path "steps." then
    match splitOnDot path with
    | _ :: step_name :: restParts =>
        if restParts.length == 2 && restParts.head? == some "variables" &&
            entity.backend_type == "HarnessIACM" then
          -- `len(parts) == 4 and parts[2] == "variables"` special branch
          let input_name := (restParts.getD 1 "")
          let blueprint_input_name :=
            if classification == "blueprint_input" then pyStr value else input_name
          let g1 :=
            if !alHasKey g.global_inputs blueprint_input_name then
              if classification == "literal" && !isVNone value then
                { g with global_inputs := alSet g.global_inputs blueprint_input_name value }
              else
                { g with global_inputs := alSet g.global_inputs blueprint_input_name .vnone }
            else g
          let expr := "$\x7b\x7benv.config." ++ blueprint_input_name ++ "\x7d\x7d"
          match wireLifecycleStep entity "apply" input_name expr with
          | none => none
          | some e1 =>
              match wireLifecycleStep e1 "destroy" input_name expr with
              | none => none
              | some e2 => some (setEntity g1 eid e2)
        else if restParts.isEmpty then
          -- `len(parts) == 2`
          match value with
          | .vdict d => some (setEntity g eid { entity with steps := alSet entity.steps step_name d })
          | .vstr s =>
              some (setEntity g eid
                { entity with steps := (alSet entity.steps step_name
                    [("pipeline", .vstr s), ("variables", .vlist [])]) })
          | _ => some g
        else
          -- `len(parts) >= 3`
          let field_name := restParts.headD ""
          let sd := (alGet entity.steps step_name).getD []
          some (setEntity g eid
            { entity with steps := alSet entity.steps step_name (alSet sd field_name value) })
    | _ => some g
  else some g

/-- `_apply_update(update)` acting on the graph (the only state it
touches). -/
def apply_update (g : BlueprintGraph) (u : Update) : Option BlueprintGraph :=
  match alGet g.entities u.entity_id with
  | none => some g
  | some entity =>
      if u.classification == "variable_reference" then
        let var_expr := "$\x7b\x7b" ++ pyStr u.value ++ "\x7d\x7d"
        if strStartsWith u.path "values." then
          (set_nested_value entity.values (strReplaceAll u.path "values." "")
            (.vstr var_expr)).map
            (fun values' => setEntity g u.entity_id { entity with values := values' })
        else if strStartsWith u.path "config." then
          let config_key := strReplaceAll u.path "config." ""
          some (setEntity g u.entity_id
            { entity with inputs := alSet entity.inputs config_key (.vstr var_expr) })
        else
          -- fall through with the expression as a literal value
          applyUpdateDispatch g u.entity_id entity u.path (.vstr var_expr) "literal"
      else if u.classification == "blueprint_input" then
        let input_name := pyStr u.value
        let g1 :=
          if !alHasKey g.global_inputs input_name then
            { g with global_inputs := alSet g.global_inputs input_name .vnone }
          else g
        if strStartsWith u.path "config." then
          let config_key := strReplaceAll u.path "config." ""
          some (setEntity g1 u.entity_id
            { entity with inputs := (alSet entity.inputs config_key
                (.vstr ("$\x7b\x7benv.config." ++ input_name ++ "\x7d\x7d"))) })
        else if strStartsWith u.path "values." then
          (set_nested_value entity.values (strReplaceAll u.path "values." "")
            (.vstr ("$\x7b\x7benv.config." ++ input_name ++ "\x7d\x7d"))).map
            (fun values' => setEntity g1 u.entity_id { entity with values := values' })
        else
          applyUpdateDispatch g1 u.entity_id entity u.path u.value u.classification
      else
        applyUpdateDispatch g u.entity_id entity u.path u.value u.classification

/-- Auto-fill of one step in `_auto_fill_obvious_values`: create the
step with the single pipeline if missing, or add the pipeline field
(and a `variables` list if absent) if the step lacks one. -/
def autoFillStep (pipeline_id : String) (steps : List (String × List (String × Value)))
    (step_name : String) : List (String × List (String × Value)) :=
  match alGet steps step_name with
  | none =>
      alSet steps step_name [("pipeline", .vstr pipeline_id), ("variables", .vlist [])]
  | some sd =>
      if !alHasKey sd "pipeline" then
        let sd1 := alSet sd "pipeline" (.vstr pipeline_id)
        let sd2 := if !alHasKey sd1 "variables" then alSet sd1 "variables" (.vlist []) else sd1
        alSet steps step_name sd2
      else steps

/-- `_auto_fill_obvious_values()`: only fires when exactly one known
pipeline exists for the entity's backend type. -/
def auto_fill_obvious_values (pipelines : List (String × Pipeline))
    (g : BlueprintGraph) : BlueprintGraph :=
  { g with entities := g.entities.map (fun ee =>
      let available :=
        (pipelines.filter (fun q => q.2.backend_type == ee.2.backend_type)).map Prod.fst
      match available with
      | [pid] =>
          (ee.1, { ee.2 with steps := autoFillStep pid (autoFillStep pid ee.2.steps "apply") "destroy" })
      | _ => ee) }

/-- The computation performed by `_validate_and_continue` before any
question is formulated: auto-fill, auto-wire, then validate
(the `GRAPH_CREATED → VALIDATION` transition). -/
def validation_transition (pipelines : List (String × Pipeline)) (g : BlueprintGraph) :
    Option (BlueprintGraph × List MissingRequirement) :=
  let g1 := auto_fill_obvious_values pipelines g
  match auto_wire_dependencies g1 with
  | none => none
  | some g2 => some (g2, validate_graph pipelines g2)

/-- A system response of the conversation engine: a question delegated
to the external question formulator, a completion (the YAML was
rendered), or a plain message.  Acknowledgment prefixes and the literal
completion text are presentational and not modelled. -/
inductive EngineResponse where
  | question (text : String)
  | complete
  | message (text : String)
deriving Repr, DecidableEq

/-- A structured new-entity record as produced by the external
entity-discovery collaborator (`detect_new_entities`). -/
structure EntityData where
  backend_type : String
  template : Option String
  component : Option String
  dependency_names : List String
deriving Repr

/-- The conversation-engine state owned by `ConversationEngine`
(fields relevant to the graph-compiler core). -/
structure ConversationState where
  graph : BlueprintGraph
  state : String
  missing_requirements : List MissingRequirement
  current_question_index : Nat
  current_entity_group : List MissingRequirement
  component_to_entity_id : List (String × String)
  entity_counter : Nat
  yaml_output : Option Value
deriving Repr

/-- One character of `_generate_entity_id`'s sanitisation
(`base_name.lower().replace("-", "_").replace(" ", "_")`). -/
def sanitizeChar (c : Char) : Char :=
  if c = '-' || c = ' ' then '_' else c.toLower

/-- `_generate_entity_id(entity_data)`: bumps the session counter and
returns `"<sanitized>_e<counter>"`. -/
def generate_entity_id (s : ConversationState) (ed : EntityData) :
    String × ConversationState :=
  let base :=
    if ed.backend_type == "Catalog" then ed.component.getD "service"
    else if ed.backend_type == "HarnessIACM" then ed.template.getD "iacm"
    else "entity"
  let sanitized := String.mk (base.toList.map sanitizeChar)
  let n := s.entity_counter + 1
  (sanitized ++ "_e" ++ toString n, { s with entity_counter := n })

/-- One iteration of the entity-addition loop of
`_handle_entity_expansion`: returns the updated state and whether an
entity name was acknowledged (which is what gates re-validation). -/
def expandOne (s : ConversationState) (ed : EntityData) : ConversationState × Bool :=
  let (eid, s1) := generate_entity_id s ed
  if alHasKey s1.graph.entities eid then (s1, false)
  else
    let resolved := ed.dependency_names.map (fun dn =>
      (alGet s1.component_to_entity_id dn).getD dn)
    let e0 : Entity :=
      { id := eid, backend_type := ed.backend_type
        inputs := [], values := [], steps := [], dependencies := resolved }
    let (e1, cmap, added) :=
      if ed.backend_type == "HarnessIACM" then
        match ed.template with
        | some tname =>
            ({ e0 with steps := [("create", [("template", .vstr tname), ("version", .vstr "v1")])] },
             alSet s1.component_to_entity_id tname eid, true)
        | none => (e0, s1.component_to_entity_id, true)
      else if ed.backend_type == "Catalog" then
        match ed.component with
        | some cname =>
            ({ e0 with values := [("identifier", .vstr cname)] },
             alSet s1.component_to_entity_id cname eid, true)
        | none => (e0, s1.component_to_entity_id, true)
      else (e0, s1.component_to_entity_id, false)
    ({ s1 with graph := { s1.graph with entities := alSet s1.graph.entities eid e1 }
               component_to_entity_id := cmap },
     added)

/-- `_group_missing_requirements` followed by selecting the first
entity's group: all findings of the entity of the first finding, in
order. -/
def firstEntityGroup (reqs : List MissingRequirement) : List MissingRequirement :=
  match reqs with
  | [] => []
  | r :: _ => reqs.filter (fun q => q.entity_id == r.entity_id)

/-- `_validate_and_continue()`: auto-fill, auto-wire, validate; with
findings it batches the first entity's findings into one compound
question (delegated to the external formulator `fcq`), otherwise it
renders the YAML document and completes. -/
def validate_and_continue (pipelines : List (String × Pipeline))
    (fcq : String → List MissingRequirement → Option Entity → String)
    (s : ConversationState) : Option (EngineResponse × ConversationState) :=
  match validation_transition pipelines s.graph with
  | none => none
  | some (g2, findings) =>
      match findings with
      | [] =>
          match render_yaml_dict g2 with
          | none => none
          | some y =>
              some (.complete,
                { s with graph := g2, missing_requirements := []
                         state := "YAML_RENDERED", yaml_output := some y })
      | f :: _ =>
          let group := firstEntityGroup findings
          some (.question (fcq f.entity_id group (alGet g2.entities f.entity_id)),
            { s with graph := g2, missing_requirements := findings
                     current_question_index := 0, current_entity_group := group
                     state := "NEEDS_INPUT" })

/-- `_handle_entity_expansion(new_entities)`: add the discovered
entities (the graph only grows), then — when anything was acknowledged —
jump back into validation. -/
def handle_entity_expansion (pipelines : List (String × Pipeline))
    (fcq : String → List MissingRequirement → Option Entity → String)
    (neds : List EntityData) (s : ConversationState) :
    Option (EngineResponse × ConversationState) :=
  let s1 := neds.foldl (fun acc ed =>
    let r := expandOne acc.1 ed
    (r.1, acc.2 || r.2)) (s, false)
  if s1.2 then validate_and_continue pipelines fcq { s1.1 with state := "GRAPH_CREATED" }
  else some (.message "No new entities detected.", s1.1)

/-- The compound-answer parse for one addressed path
(`\x7bvalue, classification\x7d`). -/
structure CompoundAnswer where
  value : Value
  classification : Option String
deriving Repr

/-- The single-answer parse returned by `parse_answer`: a structured
update, or an explicit error marker. -/
structure AnswerParse where
  entity_id : String
  path : String
  value : Value
  classification : Option String
  error : Option String
deriving Repr

/-- Application of a parsed compound answer: each addressed path that
matches a requirement of the current batch is applied via
`_apply_update`; unmatched paths are ignored. -/
def applyCompound (g : BlueprintGraph) (group : List MissingRequirement) :
    List (String × CompoundAnswer) → Option BlueprintGraph
  | [] => some g
  | (path, ca) :: rest =>
      match group.find? (fun r => r.path == path) with
      | none => applyCompound g group rest
      | some req =>
          match apply_update g
            { entity_id := req.entity_id, path := path, value := ca.value
              classification := ca.classification.getD "literal" } with
          | none => none
          | some g' => applyCompound g' group rest

/-- Steps 2 and 3 of `_handle_user_response` after answers were
applied: check for newly discovered entities, then either re-validate
or ask the next single question of the batch. -/
def afterAnswers (pipelines : List (String × Pipeline))
    (fq : MissingRequirement → Option Entity → String)
    (fcq : String → List MissingRequirement → Option Entity → String)
    (new_entities : List EntityData) (s : ConversationState) :
    Option (EngineResponse × ConversationState) :=
  if !new_entities.isEmpty then handle_entity_expansion pipelines fcq new_entities s
  else if s.current_entity_group.isEmpty then validate_and_continue pipelines fcq s
  else if s.missing_requirements.length ≤ s.current_question_index then
    validate_and_continue pipelines fcq s
  else
    match s.missing_requirements.get? s.current_question_index with
    | none => none
    | some next_req =>
        some (.question (fq next_req (alGet s.graph.entities next_req.entity_id)), s)

/-- `_handle_user_response(user_text)`, with the external collaborator
results passed as data: `compound_parsed` (`parse_compound_answer`),
`single_parsed` (`parse_answer`) and `new_entities`
(`detect_new_entities`).  When the single-answer parse carries a truthy
error marker, the same pending requirement is re-asked through the
question formulator and nothing else happens. -/
def handle_user_response (pipelines : List (String × Pipeline))
    (fq : MissingRequirement → Option Entity → String)
    (fcq : String → List MissingRequirement → Option Entity → String)
    (compound_parsed : List (String × CompoundAnswer)) (single_parsed : AnswerParse)
    (new_entities : List EntityData) (s : ConversationState) :
    Option (EngineResponse × ConversationState) :=
  if s.missing_requirements.length ≤ s.current_question_index then
    some (.message "No pending questions", s)
  else if !s.current_entity_group.isEmpty && !compound_parsed.isEmpty then
    match applyCompound s.graph s.current_entity_group compound_parsed with
    | none => none
    | some g' =>
        afterAnswers pipelines fq fcq new_entities
          { s with graph := g', current_entity_group := [] }
  else
    match s.missing_requirements.get? s.current_question_index with
    | none => none
    | some current_req =>
        if (match single_parsed.error with
            | some e => !e.toList.isEmpty
            | none => false) then
          some (.question (fq current_req (alGet s.graph.entities current_req.entity_id)), s)
        else
          match apply_update s.graph
            { entity_id := single_parsed.entity_id, path := single_parsed.path
              value := single_parsed.value
              classification := single_parsed.classification.getD "literal" } with
          | none => none
          | some g' =>
              afterAnswers pipelines fq fcq new_entities
                { s with graph := g'
                         current_question_index := s.current_question_index + 1 }

/-- A graph-mutating operation of the compiler, for the monotonic
growth property: an update application or an entity-discovery merge. -/
inductive CompilerOp where
  | applyUpd (u : Update)
  | discover (neds : List EntityData)

def run_op (pipelines : List (String × Pipeline))
    (fcq : String → List MissingRequirement → Option Entity → String)
    (s : ConversationState) : CompilerOp → Option ConversationState
  | .applyUpd u => (apply_update s.graph u).map (fun g' => { s with graph := g' })
  | .discover neds => (handle_entity_expansion pipelines fcq neds s).map Prod.snd

def run_ops (pipelines : List (String × Pipeline))
    (fcq : String → List MissingRequirement → Option Entity → String) :
    ConversationState → List CompilerOp → Option ConversationState
  | s, [] => some s
  | s, op :: rest =>
      match run_op pipelines fcq s op with
      | none => none
      | some s' => run_ops pipelines fcq s' rest

/-! ## Concrete inputs used by the counterexamples and witnesses -/

/-- A Catalog entity whose apply step names a pipeline id that is not in
the knowledge base. -/
def c1web : Entity :=
  { id := "web", backend_type := "Catalog", inputs := []
    values := [("identifier", .vstr "web")]
    steps := [("apply", [("pipeline", .vstr "nope")])]
    dependencies := [] }

def c1Graph : BlueprintGraph :=
  { global_inputs := [], entities := [("web", c1web)] }

/-- A deployment-style entity fully bound to a known environment and
infrastructure (`mycluster` / `ssemteamdelegate`, which requires the
`namespace` binding) with the `namespace` binding left unpopulated, and
everything else satisfied. -/
def c2frontend : Entity :=
  { id := "frontend", backend_type := "Catalog", inputs := []
    values :=
      [("identifier", .vstr "frontend"),
       ("environment", .vdict
         [("identifier", .vstr "mycluster"),
          ("infra", .vdict [("identifier", .vstr "ssemteamdelegate")])])]
    steps := [("apply", [("pipeline", .vstr "DeployService")]),
              ("destroy", [("pipeline", .vstr "UninstallService")])]
    dependencies := [] }

def c2Graph : BlueprintGraph :=
  { global_inputs := [], entities := [("frontend", c2frontend)] }

/-- A Catalog entity bound to an unknown environment (used to witness
which findings the catalog-specific check can produce). -/
def c2badEnv : Entity :=
  { id := "bad", backend_type := "Catalog", inputs := []
    values := [("environment", .vdict [("identifier", .vstr "nowhere")])]
    steps := [], dependencies := [] }

/-- The IaCM namespace entity of the demo scenario: only a `create`
step naming the known template `TempNamespace` (workspace set so that
the only remaining gap is the template input). -/
def nsEntity : Entity :=
  { id := "ns", backend_type := "HarnessIACM", inputs := []
    values := [("workspace", .vstr "ws")]
    steps := [("create", [("template", .vstr "TempNamespace"), ("version", .vstr "v1")])]
    dependencies := [] }

/-- A Catalog entity referencing a dependency-output field `bogus` that
the dependency's known template does not declare. -/
def c3frontend : Entity :=
  { c2frontend with
      dependencies := ["ns"]
      steps := [("apply",
                  [("pipeline", .vstr "DeployService"),
                   ("variables", .vlist
                     [.vdict [("name", .vstr "x"),
                              ("value", .vstr "$\x7b\x7bdependencies.ns.output.bogus\x7d\x7d")]])]),
                ("destroy", [("pipeline", .vstr "UninstallService")])] }

def c3Graph : BlueprintGraph :=
  { global_inputs := [], entities := [("frontend", c3frontend), ("ns", nsEntity)] }

/-- The pipeline table premised by the auto-fill scenario: a single
known pipeline per backend type (the repository's own table has two per
type, so the auto-fill condition is stated over the table). -/
def singlePipelineDB : List (String × Pipeline) :=
  [("RunIaCM", { pipeline_id := "RunIaCM", backend_type := "HarnessIACM", inputs := [] }),
   ("DeployService", { pipeline_id := "DeployService", backend_type := "Catalog", inputs := [] })]

def c4Graph : BlueprintGraph :=
  { global_inputs := [], entities := [("ns", nsEntity)] }

/-- The namespace entity after auto-fill: `apply` and `destroy` added
with the single pipeline id and an empty variable list. -/
def nsAfterAutoFill : Entity :=
  { nsEntity with
      steps := [("create", [("template", .vstr "TempNamespace"), ("version", .vstr "v1")]),
                ("apply", [("pipeline", .vstr "RunIaCM"), ("variables", .vlist [])]),
                ("destroy", [("pipeline", .vstr "RunIaCM"), ("variables", .vlist [])])] }

def c4GraphAfter : BlueprintGraph :=
  { global_inputs := [], entities := [("ns", nsAfterAutoFill)] }

/-- An IaCM entity with all three lifecycle steps present. -/
def c5ns : Entity :=
  { id := "ns", backend_type := "HarnessIACM", inputs := []
    values := [("workspace", .vstr "ws")]
    steps := [("create", [("template", .vstr "TempNamespace"), ("version", .vstr "v1")]),
              ("apply", [("pipeline", .vstr "RunIaCM"), ("variables", .vlist [])]),
              ("destroy", [("pipeline", .vstr "DestroyIaCM"), ("variables", .vlist [])])]
    dependencies := [] }

def c5Graph : BlueprintGraph :=
  { global_inputs := [], entities := [("ns", c5ns)] }

def c5Update : Update :=
  { entity_id := "ns", path := "steps.apply.variables.name"
    value := .vstr "nsname", classification := "blueprint_input" }

/-- `c5ns` after the blueprint-input update: `apply` and `destroy`
carry the wired variable, `create` is untouched. -/
def c5nsAfter : Entity :=
  { c5ns with
      steps := [("create", [("template", .vstr "TempNamespace"), ("version", .vstr "v1")]),
                ("apply",
                  [("pipeline", .vstr "RunIaCM"),
                   ("variables", .vlist
                     [.vdict [("name", .vstr "name"),
                              ("value", .vstr "$\x7b\x7benv.config.nsname\x7d\x7d")]])]),
                ("destroy",
                  [("pipeline", .vstr "DestroyIaCM"),
                   ("variables", .vlist
                     [.vdict [("name", .vstr "name"),
                              ("value", .vstr "$\x7b\x7benv.config.nsname\x7d\x7d")]])])] }

def c5GraphAfter : BlueprintGraph :=
  { global_inputs := [("nsname", .vnone)], entities := [("ns", c5nsAfter)] }

/-- The resolver scenario: `frontend` depends on `ns`, bound to the
environment/infrastructure that requires the `namespace` binding. -/
def c6frontend : Entity :=
  { c2frontend with dependencies := ["ns"] }

def c6Graph : BlueprintGraph :=
  { global_inputs := [], entities := [("frontend", c6frontend), ("ns", nsEntity)] }

def c6Wired : BlueprintGraph :=
  (auto_wire_dependencies c6Graph).getD { global_inputs := [], entities := [] }

/-- A fully valid two-entity graph (zero findings) whose steps carry
variable expressions, used for the round-trip render property. -/
def c7ns : Entity :=
  { id := "ns", backend_type := "HarnessIACM", inputs := []
    values := [("workspace", .vstr "ws")]
    steps := [("create", [("template", .vstr "TempNamespace"), ("version", .vstr "v1")]),
              ("apply",
                [("pipeline", .vstr "RunIaCM"),
                 ("variables", .vlist
                   [.vdict [("name", .vstr "name"),
                            ("value", .vstr "$\x7b\x7benv.config.nsname\x7d\x7d")]])]),
              ("destroy", [("pipeline", .vstr "DestroyIaCM"), ("variables", .vlist [])])]
    dependencies := [] }

def c7frontend : Entity :=
  { id := "frontend", backend_type := "Catalog", inputs := []
    values :=
      [("identifier", .vstr "frontend"),
       ("environment", .vdict
         [("identifier", .vstr "mycluster"),
          ("infra", .vdict
            [("identifier", .vstr "ssemteamdelegate"),
             ("namespace", .vstr "$\x7b\x7bdependencies.ns.output.name\x7d\x7d")])])]
    steps := [("apply",
                [("pipeline", .vstr "DeployService"),
                 ("variables", .vlist
                   [.vdict [("name", .vstr "ns"),
                            ("value", .vstr "$\x7b\x7bdependencies.ns.output.name\x7d\x7d")]])]),
              ("destroy", [("pipeline", .vstr "UninstallService")])]
    dependencies := ["ns"] }

def c7Graph : BlueprintGraph :=
  { global_inputs := [("nsname", .vnone)]
    entities := [("ns", c7ns), ("frontend", c7frontend)] }

def c7Doc : Value :=
  (render_yaml_dict c7Graph).getD .vnone

/-- The pending requirement of the error re-ask scenario. -/
def c9Req : MissingRequirement :=
  { entity_id := "frontend", path := "values.workspace"
    reason := "Required value \x27values.workspace\x27 is missing", options := none }

/-- The engine state of the error re-ask scenario: one pending
requirement, single-question mode. -/
def c9State : ConversationState :=
  { graph := c2Graph, state := "NEEDS_INPUT"
    missing_requirements := [c9Req]
    current_question_index := 0, current_entity_group := []
    component_to_entity_id := [], entity_counter := 1, yaml_output := none }

/-- An answer parse carrying the explicit error marker. -/
def c9Answer : AnswerParse :=
  { entity_id := "frontend", path := "values.workspace", value := .vnone
    classification := none
    error := some "Could not extract valid identifier from answer" }

/-- A literal update and discovery record for the monotonicity witness. -/
def c8Update : Update :=
  { entity_id := "frontend", path := "config.replicas"
    value := .vint 2, classification := "literal" }

def c8NsData : EntityData :=
  { backend_type := "HarnessIACM", template := some "TempNamespace"
    component := none, dependency_names := [] }

/-- A stand-in question formulator for concrete runs. -/
def c8fcq : String → List MissingRequirement → Option Entity → String :=
  fun eid _ _ => "CQ:" ++ eid

def c8State0 : ConversationState :=
  { graph := c2Graph, state := "YAML_RENDERED", missing_requirements := []
    current_question_index := 0, current_entity_group := []
    component_to_entity_id := [("frontend", "frontend")], entity_counter := 0
    yaml_output := none }

def c8Ops : List CompilerOp := [.applyUpd c8Update, .discover [c8NsData]]

def c8Final : ConversationState :=
  (run_ops PIPELINES c8fcq c8State0 c8Ops).getD c8State0

/-- Replay of a list of `(binding, value)` writes, each at path
`environment.infra.<binding>`, through `_set_nested_value`. -/
def chainInfraWrites (vals : List (String × Value)) :
    List (String × Value) → Option (List (String × Value))
  | [] => some vals
  | (b, v) :: rest =>
      match set_nested_value vals ("environment.infra." ++ b) v with
      | none => none
      | some vals2 => chainInfraWrites vals2 rest

/-- The values dict changed only by writes under
`environment.infra.<binding>`. -/
def valuesOnlyInfraWrites (vals vals' : List (String × Value)) : Prop :=
  ∃ ws, chainInfraWrites vals ws = some vals'

/-- Frame relation between an entity before and after the resolver:
everything except Catalog `values` (and there, only
`environment.infra.*` writes) is untouched. -/
def entityFrame (p q : String × Entity) : Prop :=
  q.1 = p.1 ∧ q.2.id = p.2.id ∧ q.2.backend_type = p.2.backend_type ∧
  q.2.inputs = p.2.inputs ∧ q.2.steps = p.2.steps ∧
  q.2.dependencies = p.2.dependencies ∧
  (p.2.backend_type ≠ "Catalog" → q.2 = p.2) ∧
  valuesOnlyInfraWrites p.2.values q.2.values

/-- The `backend.steps` dict of a rendered entity record. -/
def renderedSteps (re : Value) : Option Value :=
  match re with
  | .vdict d =>
      match alGet d "backend" with
      | some (.vdict bd) => alGet bd "steps"
      | _ => none
  | _ => none

/-- The `interface.dependencies` list of a rendered entity record. -/
def renderedDeps (re : Value) : Option Value :=
  match re with
  | .vdict d =>
      match alGet d "interface" with
      | some (.vdict idd) => alGet idd "dependencies"
      | _ => none
  | _ => none

/-- The `blueprint.entities` list of the rendered document. -/
def renderedEntities (doc : Value) : Option (List Value) :=
  match doc with
  | .vdict d =>
      match alGet d "blueprint" with
      | some (.vdict bp) =>
          match alGet bp "entities" with
          | some (.vlist es) => some es
          | _ => none
      | _ => none
  | _ => none

/-- A stored variable entry and its rendered counterpart: the rendered
entry holds exactly the stored `name` and the byte-identical stored
`value`. -/
def varRendered (v rv : Value) : Prop :=
  ∀ d, v = Value.vdict d →
    ∃ n val, alGet d "name" = some n ∧ alGet d "value" = some val ∧
      rv = Value.vdict [("name", n), ("value", val)]

/-- A stored step dict and its rendered counterpart: a stored
`variables` list is emitted with every expression string preserved
verbatim. -/
def stepRendered (sd rsd : List (String × Value)) : Prop :=
  ∀ vars, alGet sd "variables" = some (.vlist vars) →
    ∃ rvars, alGet rsd "variables" = some (.vlist rvars) ∧
      List.Forall₂ varRendered vars rvars

/-- An entity and its rendered record: every stored step is emitted
(with variables preserved) and the declared dependencies are emitted as
the full `\x7bidentifier\x7d` list. -/
def entityRendered (e : Entity) (re : Value) : Prop :=
  (∀ sn sd, alGet e.steps sn = some sd →
    ∃ bd rsd, renderedSteps re = some (.vdict bd) ∧
      alGet bd sn = some (.vdict rsd) ∧ stepRendered sd rsd) ∧
  (e.dependencies ≠ [] →
    renderedDeps re =
      some (.vlist (e.dependencies.map (fun dep => Value.vdict [("identifier", .vstr dep)]))))

/-- The finding `_validate_pipelines` produces for an unknown pipeline
id (exactly as built in the source, options included). -/
def unknownPipelineFinding (pipelines : List (String × Pipeline)) (e : Entity)
    (eid sn pid : String) : MissingRequirement :=
  let available := (pipelines.filter (fun q => q.2.backend_type == e.backend_type)).map Prod.fst
  { entity_id := eid, path := "steps." ++ sn ++ ".pipeline"
    reason := "Pipeline \x27" ++ pid ++ "\x27 does not exist"
    options := if available.isEmpty then none else some available }

/-! ## Theorems -/

theorem alGet_mem {α : Type} (k : String) (v : α) :
    ∀ l : List (String × α), alGet l k = some v → (k, v) ∈ l := by
  intro l
  induction l with
  | nil => intro h; simp [alGet] at h
  | cons p rest ih =>
      obtain ⟨k', v'⟩ := p
      intro h
      simp only [alGet] at h
      split at h
      · next heq =>
          injection h with h
          subst heq; subst h
          exact List.mem_cons_self _ _
      · exact List.mem_cons_of_mem _ (ih h)

theorem mem_validate_entity_of_pipelines {pipelines : List (String × Pipeline)}
    {g : BlueprintGraph} {eid : String} {e : Entity} {f : MissingRequirement}
    (hf : f ∈ validate_pipelines pipelines eid e) :
    f ∈ validate_entity pipelines g (eid, e) := by
  simp only [validate_entity, List.mem_append]
  tauto

theorem mem_validate_graph_of_entity {pipelines : List (String × Pipeline)}
    {g : BlueprintGraph} {eid : String} {e : Entity} {f : MissingRequirement}
    (hent : (eid, e) ∈ g.entities)
    (hf : f ∈ validate_entity pipelines g (eid, e)) :
    f ∈ validate_graph pipelines g := by
  unfold validate_graph
  exact List.mem_flatten.mpr ⟨_, List.mem_map_of_mem _ hent, hf⟩

theorem mem_validate_pipelines_of_step {pipelines : List (String × Pipeline)}
    {eid : String} {e : Entity} {sn : String} {sd : List (String × Value)}
    {f : MissingRequirement}
    (hstep : (sn, sd) ∈ e.steps)
    (hf : f ∈ validate_pipelines_step pipelines eid e (sn, sd)) :
    f ∈ validate_pipelines pipelines eid e := by
  unfold validate_pipelines
  exact List.mem_flatten.mpr ⟨_, List.mem_map_of_mem _ hstep, hf⟩

/-- C1 (amended): a step whose `pipeline` field names an id that does
not resolve in the knowledge base yields exactly one finding for that
step — path `steps.<s>.pipeline`, reason `Pipeline '<id>' does not
exist`, options listing the backend's known pipelines — and that
finding is reported by `validate_graph`; pipeline-input checking is
skipped for the unknown id (the step contributes nothing else). -/
theorem unknown_pipeline_reports_finding
    (pipelines : List (String × Pipeline)) (g : BlueprintGraph) (eid : String)
    (e : Entity) (sn : String) (sd : List (String × Value)) (pid : String)
    (hent : alGet g.entities eid = some e)
    (hstep : alGet e.steps sn = some sd)
    (hpl : alGet sd "pipeline" = some (.vstr pid))
    (hunknown : alGet pipelines pid = none) :
    validate_pipelines_step pipelines eid e (sn, sd) =
      [unknownPipelineFinding pipelines e eid sn pid] ∧
    unknownPipelineFinding pipelines e eid sn pid ∈ validate_graph pipelines g := by
  have hstepEq : validate_pipelines_step pipelines eid e (sn, sd) =
      [unknownPipelineFinding pipelines e eid sn pid] := by
    unfold validate_pipelines_step unknownPipelineFinding
    simp only [hpl, get_pipeline, hunknown, pyStr]
  refine ⟨hstepEq, ?_⟩
  apply mem_validate_graph_of_entity (alGet_mem _ _ _ hent)
  apply mem_validate_entity_of_pipelines
  apply mem_validate_pipelines_of_step (alGet_mem _ _ _ hstep)
  rw [hstepEq]
  exact List.mem_singleton.mpr rfl

/-- C1 witness: the unknown pipeline id `nope` on entity `web`. -/
theorem unknown_pipeline_reports_finding_witness :
    alGet c1Graph.entities "web" = some c1web ∧
    alGet c1web.steps "apply" = some [("pipeline", .vstr "nope")] ∧
    alGet [("pipeline", Value.vstr "nope")] "pipeline" = some (.vstr "nope") ∧
    alGet PIPELINES "nope" = none ∧
    (validate_pipelines_step PIPELINES "web" c1web ("apply", [("pipeline", .vstr "nope")]) =
      [unknownPipelineFinding PIPELINES c1web "web" "apply" "nope"] ∧
     unknownPipelineFinding PIPELINES c1web "web" "apply" "nope" ∈
       validate_graph PIPELINES c1Graph) :=
  ⟨rfl, rfl, rfl, rfl,
   unknown_pipeline_reports_finding PIPELINES c1Graph "web" c1web "apply"
     [("pipeline", .vstr "nope")] "nope" rfl rfl rfl rfl⟩

/-- C1 counterexample: the claim says `validate_graph` reports no
finding for a step with an unknown pipeline id; on `c1Graph` (entity
`web`, step `apply`, pipeline `nope`) a finding for exactly that step
is reported. -/
theorem unknown_pipeline_counterexample :
    ({ entity_id := "web", path := "steps.apply.pipeline"
       reason := "Pipeline \x27nope\x27 does not exist"
       options := some ["DeployService", "UninstallService"] } : MissingRequirement) ∈
      validate_graph PIPELINES c1Graph := by decide

/-- C2 (amended): the catalog-specific check never reports an
unpopulated required binding — its only possible findings are an
unknown environment identifier or an unknown infrastructure identifier
(the required-bindings loop in the source is a deliberate no-op). -/
theorem catalog_check_only_identifier_findings (eid : String) (e : Entity)
    (f : MissingRequirement) (hf : f ∈ validate_catalog_entity eid e) :
    f.path = "values.environment.identifier" ∨
    f.path = "values.environment.infra.identifier" := by
  unfold validate_catalog_entity at hf
  dsimp only at hf
  split at hf
  · simp at hf
  · split at hf
    · rw [List.mem_singleton] at hf; subst hf; left; rfl
    · split at hf
      · simp at hf
      · split at hf
        · rw [List.mem_singleton] at hf; subst hf; right; rfl
        · simp at hf

/-- C2 witness: an unknown environment id produces the (identifier)
finding, which the theorem classifies. -/
theorem catalog_check_only_identifier_findings_witness :
    ({ entity_id := "bad", path := "values.environment.identifier"
       reason := "Environment \x27nowhere\x27 does not exist"
       options := none } : MissingRequirement) ∈ validate_catalog_entity "bad" c2badEnv ∧
    (({ entity_id := "bad", path := "values.environment.identifier"
        reason := "Environment \x27nowhere\x27 does not exist"
        options := none } : MissingRequirement).path = "values.environment.identifier" ∨
     ({ entity_id := "bad", path := "values.environment.identifier"
        reason := "Environment \x27nowhere\x27 does not exist"
        options := none } : MissingRequirement).path = "values.environment.infra.identifier") :=
  ⟨by decide, catalog_check_only_identifier_findings "bad" c2badEnv _ (by decide)⟩

/-- C2 counterexample: on `c2Graph` the entity `frontend` resolves
environment `mycluster` and infrastructure `ssemteamdelegate` (which
requires the binding `namespace`), the binding is unpopulated, and yet
`validate_graph` returns no finding at all. -/
theorem missing_binding_counterexample :
    get_infrastructure "mycluster" "ssemteamdelegate" =
      some { infra_id := "ssemteamdelegate", required_bindings := ["namespace"] } ∧
    pyTruthy (get_nested_value c2frontend.values "environment.infra.namespace") = false ∧
    validate_graph PIPELINES c2Graph = [] :=
  ⟨rfl, rfl, by decide⟩

/-- C3 (amended): for an expression `dependencies.ns.output.bogus`
whose dependency is declared, present in the graph, of infrastructure
backend type, and whose create step names the known template
`TempNamespace` (which has no output `bogus`), the expression check
reports exactly one finding: the output field does not exist.
Field-existence against known template metadata IS enforced. -/
theorem dependency_output_field_checked (eid : String) (e : Entity)
    (g : BlueprintGraph) (sn vn : String) (de : Entity) (cd : List (String × Value))
    (hdep : e.dependencies.contains "ns" = true)
    (hg : alGet g.entities "ns" = some de)
    (hbt : de.backend_type = "HarnessIACM")
    (hcreate : alGet de.steps "create" = some cd)
    (htemplate : alGet cd "template" = some (.vstr "TempNamespace")) :
    validate_single_expression eid e g "dependencies.ns.output.bogus"
      ["env.config", "entity.config", "dependencies"] sn vn =
      [{ entity_id := eid, path := "dependencies.ns.output.bogus"
         reason := "Output field \x27bogus\x27 does not exist in dependency \x27ns\x27 template outputs"
         options := none }] := by
  unfold validate_single_expression
  rw [if_neg (by decide), if_neg (by decide), if_pos (by decide), if_neg (by decide)]
  rw [show splitOnDot "dependencies.ns.output.bogus" =
        ["dependencies", "ns", "output", "bogus"] from rfl]
  simp only [hdep, hg, hbt, hcreate, htemplate]
  rw [if_pos (by decide), if_neg (by decide), if_pos (by decide), if_pos (by decide)]
  rfl

/-- C3 witness: the hypotheses hold on `c3Graph` (frontend declares
and the graph contains `ns`, an IaCM entity using `TempNamespace`). -/
theorem dependency_output_field_checked_witness :
    c3frontend.dependencies.contains "ns" = true ∧
    alGet c3Graph.entities "ns" = some nsEntity ∧
    nsEntity.backend_type = "HarnessIACM" ∧
    alGet nsEntity.steps "create" =
      some [("template", .vstr "TempNamespace"), ("version", .vstr "v1")] ∧
    alGet [("template", Value.vstr "TempNamespace"), ("version", Value.vstr "v1")] "template" =
      some (.vstr "TempNamespace") ∧
    validate_single_expression "frontend" c3frontend c3Graph "dependencies.ns.output.bogus"
      ["env.config", "entity.config", "dependencies"] "apply" "x" =
      [{ entity_id := "frontend", path := "dependencies.ns.output.bogus"
         reason := "Output field \x27bogus\x27 does not exist in dependency \x27ns\x27 template outputs"
         options := none }] :=
  ⟨rfl, rfl, rfl, rfl, rfl,
   dependency_output_field_checked "frontend" c3frontend c3Graph "apply" "x" nsEntity
     [("template", .vstr "TempNamespace"), ("version", .vstr "v1")] rfl rfl rfl rfl rfl⟩

/-- C3 counterexample: the claim says no finding is reported about the
output field's existence; on `c3Graph` the `bogus` output-field finding
is reported by `validate_graph`. -/
theorem dependency_output_field_counterexample :
    ({ entity_id := "frontend", path := "dependencies.ns.output.bogus"
       reason := "Output field \x27bogus\x27 does not exist in dependency \x27ns\x27 template outputs"
       options := none } : MissingRequirement) ∈ validate_graph PIPELINES c3Graph := by
  decide

/-- C4: with a single known pipeline per backend type, the
`GRAPH_CREATED → VALIDATION` transition on the `ns` scenario (an IaCM
entity whose steps contain only a `create` step naming `TempNamespace`)
auto-populates `apply` and `destroy` with that pipeline id and empty
variable lists, and the one remaining finding is the required template
input `name` at path `steps.apply.variables.name`. -/
theorem autofill_single_pipeline_scenario :
    (singlePipelineDB.filter
      (fun q => q.2.backend_type == "HarnessIACM")).map Prod.fst = ["RunIaCM"] ∧
    validation_transition singlePipelineDB c4Graph =
      some (c4GraphAfter,
        [{ entity_id := "ns", path := "steps.apply.variables.name"
           reason := "Required template input \x27name\x27 must be wired as pipeline variable"
           options := none }]) ∧
    alGet nsAfterAutoFill.steps "apply" =
      some [("pipeline", .vstr "RunIaCM"), ("variables", .vlist [])] ∧
    alGet nsAfterAutoFill.steps "destroy" =
      some [("pipeline", .vstr "RunIaCM"), ("variables", .vlist [])] :=
  ⟨rfl, rfl, rfl, rfl⟩

/-- C6: on the scenario graph (`frontend` bound to `mycluster` /
`ssemteamdelegate` with a declared dependency on the IaCM entity `ns`
using template `TempNamespace`), the resolver sets
`values.environment.infra.namespace` of `frontend` to the expression
referencing the dependency's `name` output. -/
theorem resolver_autowire_scenario :
    auto_wire_dependencies c6Graph = some c6Wired ∧
    (alGet c6Wired.entities "frontend").map
      (fun e => get_nested_value e.values "environment.infra.namespace") =
      some (some (.vstr "$\x7b\x7bdependencies.ns.output.name\x7d\x7d")) :=
  ⟨rfl, rfl⟩

theorem alGet_alSet_self {α : Type} (d : List (String × α)) (k : String) (v : α) :
    alGet (alSet d k v) k = some v := by
  induction d with
  | nil => simp [alSet, alGet]
  | cons p rest ih =>
      obtain ⟨k', v'⟩ := p
      by_cases h : k' = k
      · simp [alSet, alGet, h]
      · simp [alSet, alGet, h, ih]

theorem alGet_alSet_ne {α : Type} (d : List (String × α)) (k k2 : String) (v : α)
    (h : k2 ≠ k) : alGet (alSet d k v) k2 = alGet d k2 := by
  induction d with
  | nil =>
      simp only [alSet, alGet]
      rw [if_neg (fun hh => h hh.symm)]
  | cons p rest ih =>
      obtain ⟨k', v'⟩ := p
      by_cases hk : k' = k
      · subst hk
        simp only [alSet, if_pos rfl, alGet]
        rw [if_neg (fun hh => h hh.symm), if_neg (fun hh => h hh.symm)]
      · simp only [alSet, if_neg hk, alGet]
        split <;> simp [ih]

theorem upsertVar_mem (n ex : String) :
    ∀ vars : List Value, ∃ d', Value.vdict d' ∈ upsertVar vars n ex ∧
      alGet d' "name" = some (.vstr n) ∧ alGet d' "value" = some (.vstr ex) := by
  intro vars
  induction vars with
  | nil =>
      refine ⟨[("name", .vstr n), ("value", .vstr ex)], ?_, rfl, rfl⟩
      simp [upsertVar]
  | cons v rest ih =>
      obtain ⟨d', hmem, hn, hv⟩ := ih
      cases v with
      | vdict d =>
          by_cases hm : (match alGet d "name" with
              | some (.vstr s) => s == n
              | _ => false) = true
          · refine ⟨alSet d "value" (.vstr ex), ?_, ?_, alGet_alSet_self _ _ _⟩
            · simp only [upsertVar, if_pos hm]
              exact List.mem_cons_self _ _
            · rw [alGet_alSet_ne _ _ _ _ (by decide)]
              revert hm
              cases hd : alGet d "name" with
              | none => intro hm; simp at hm
              | some w => cases w <;> intro hm <;> simp_all
          · refine ⟨d', ?_, hn, hv⟩
            simp only [upsertVar, if_neg hm]
            exact List.mem_cons_of_mem _ hmem
      | vstr s =>
          exact ⟨d', by simp only [upsertVar]; exact List.mem_cons_of_mem _ hmem, hn, hv⟩
      | vint m =>
          exact ⟨d', by simp only [upsertVar]; exact List.mem_cons_of_mem _ hmem, hn, hv⟩
      | vbool b =>
          exact ⟨d', by simp only [upsertVar]; exact List.mem_cons_of_mem _ hmem, hn, hv⟩
      | vnone =>
          exact ⟨d', by simp only [upsertVar]; exact List.mem_cons_of_mem _ hmem, hn, hv⟩
      | vlist l =>
          exact ⟨d', by simp only [upsertVar]; exact List.mem_cons_of_mem _ hmem, hn, hv⟩

theorem wireLifecycleStep_spec (e : Entity) (k n ex : String)
    (hok : ∀ sd v, alGet e.steps k = some sd → alGet sd "variables" = some v →
      ∃ l, v = Value.vlist l) :
    ∃ e', wireLifecycleStep e k n ex = some e' ∧
      (∀ k2, k2 ≠ k → alGet e'.steps k2 = alGet e.steps k2) ∧
      (alGet e.steps k = none → e' = e) ∧
      (∀ sd, alGet e.steps k = some sd →
        ∃ sd', alGet e'.steps k = some sd' ∧
          ∃ vars', alGet sd' "variables" = some (.vlist vars') ∧
            ∃ d', Value.vdict d' ∈ vars' ∧ alGet d' "name" = some (.vstr n) ∧
              alGet d' "value" = some (.vstr ex)) := by
  cases hstep : alGet e.steps k with
  | none =>
      refine ⟨e, ?_, fun _ _ => rfl, fun _ => rfl, ?_⟩
      · unfold wireLifecycleStep
        rw [hstep]
      · intro sd hsd
        exact Option.noConfusion hsd
  | some sd =>
      have hvars : ∃ l, alGet (if !alHasKey sd "variables" then
          alSet sd "variables" (.vlist []) else sd) "variables" = some (.vlist l) := by
        cases hv : alGet sd "variables" with
        | none =>
            refine ⟨[], ?_⟩
            have hfalse : alHasKey sd "variables" = false := by
              unfold alHasKey; rw [hv]; rfl
            rw [hfalse]
            simp only [Bool.not_false, if_pos rfl]
            exact alGet_alSet_self _ _ _
        | some v =>
            obtain ⟨l, hl⟩ := hok sd v hstep hv
            subst hl
            refine ⟨l, ?_⟩
            have htrue : alHasKey sd "variables" = true := by
              unfold alHasKey; rw [hv]; rfl
            rw [htrue]
            simpa using hv
      obtain ⟨l, hl⟩ := hvars
      refine ⟨{ e with steps := (alSet e.steps k
        (alSet (if !alHasKey sd "variables" then alSet sd "variables" (.vlist []) else sd)
          "variables" (.vlist (upsertVar l n ex)))) }, ?_, ?_, ?_, ?_⟩
      · unfold wireLifecycleStep
        rw [hstep]
        dsimp only
        rw [hl, Option.getD_some]
      · intro k2 hk2
        exact alGet_alSet_ne _ _ _ _ hk2
      · intro hnone
        exact Option.noConfusion hnone
      · intro sd0 _
        refine ⟨_, alGet_alSet_self _ _ _, upsertVar l n ex, alGet_alSet_self _ _ _, ?_⟩
        exact upsertVar_mem n ex l

theorem blueprint_input_wires_apply_and_destroy
    (g : BlueprintGraph) (eid : String) (e : Entity) (bname : String)
    (hent : alGet g.entities eid = some e)
    (hbt : e.backend_type = "HarnessIACM")
    (hok : ∀ k sd v, (k = "apply" ∨ k = "destroy") → alGet e.steps k = some sd →
      alGet sd "variables" = some v → ∃ l, v = Value.vlist l) :
    ∃ g', apply_update g
        { entity_id := eid, path := "steps.apply.variables.name"
          value := .vstr bname, classification := "blueprint_input" } = some g' ∧
      ∃ e', alGet g'.entities eid = some e' ∧
        (∀ k, k ≠ "apply" → k ≠ "destroy" → alGet e'.steps k = alGet e.steps k) ∧
        (∀ k, (k = "apply" ∨ k = "destroy") → ∀ sd, alGet e.steps k = some sd →
          ∃ sd', alGet e'.steps k = some sd' ∧
            ∃ vars', alGet sd' "variables" = some (.vlist vars') ∧
              ∃ d', Value.vdict d' ∈ vars' ∧
                alGet d' "name" = some (.vstr "name") ∧
                alGet d' "value" =
                  some (.vstr ("$\x7b\x7benv.config." ++ bname ++ "\x7d\x7d"))) := by
  obtain ⟨e1, hw1, ha1, hn1, hc1⟩ :=
    wireLifecycleStep_spec e "apply" "name" ("$\x7b\x7benv.config." ++ bname ++ "\x7d\x7d")
      (fun sd v hsd hv => hok "apply" sd v (Or.inl rfl) hsd hv)
  obtain ⟨e2, hw2, ha2, hn2, hc2⟩ :=
    wireLifecycleStep_spec e1 "destroy" "name" ("$\x7b\x7benv.config." ++ bname ++ "\x7d\x7d")
      (fun sd v hsd hv => hok "destroy" sd v (Or.inr rfl)
        (by rwa [ha1 "destroy" (by decide)] at hsd) hv)
  have hself : ∀ (gi : List (String × Value)),
      alHasKey (alSet gi bname Value.vnone) bname = true := by
    intro gi
    unfold alHasKey
    rw [alGet_alSet_self]
    rfl
  have tail : ∀ G : BlueprintGraph, G.entities = g.entities →
      ∃ e', alGet (setEntity G eid e2).entities eid = some e' ∧
        (∀ k, k ≠ "apply" → k ≠ "destroy" → alGet e'.steps k = alGet e.steps k) ∧
        (∀ k, (k = "apply" ∨ k = "destroy") → ∀ sd, alGet e.steps k = some sd →
          ∃ sd', alGet e'.steps k = some sd' ∧
            ∃ vars', alGet sd' "variables" = some (.vlist vars') ∧
              ∃ d', Value.vdict d' ∈ vars' ∧
                alGet d' "name" = some (.vstr "name") ∧
                alGet d' "value" =
                  some (.vstr ("$\x7b\x7benv.config." ++ bname ++ "\x7d\x7d"))) := by
    intro G _
    refine ⟨e2, alGet_alSet_self _ _ _,
      fun k hka hkd => (ha2 k hkd).trans (ha1 k hka),
      fun k hk sd hsd => ?_⟩
    rcases hk with rfl | rfl
    · obtain ⟨sd', h1, vars', h2, hrest⟩ := hc1 sd hsd
      exact ⟨sd', (ha2 "apply" (by decide)).trans h1, vars', h2, hrest⟩
    · obtain ⟨sd', h1, vars', h2, hrest⟩ :=
        hc2 sd (by rwa [ha1 "destroy" (by decide)])
      exact ⟨sd', h1, vars', h2, hrest⟩
  by_cases hKey : alHasKey g.global_inputs bname = true
  · have happ : apply_update g
        { entity_id := eid, path := "steps.apply.variables.name"
          value := .vstr bname, classification := "blueprint_input" } =
        some (setEntity g eid e2) := by
      simp +decide only [apply_update, applyUpdateDispatch, hent, pyStr, hbt, hKey,
        ite_true, ite_false, if_true, if_false, List.getD_cons_succ, List.getD_cons_zero,
        show splitOnDot "steps.apply.variables.name" =
          ["steps", "apply", "variables", "name"] from rfl]
      rw [hw1]
      dsimp only
      rw [hw2]
    exact ⟨setEntity g eid e2, happ, tail g rfl⟩
  · have happ : apply_update g
        { entity_id := eid, path := "steps.apply.variables.name"
          value := .vstr bname, classification := "blueprint_input" } =
        some (setEntity { g with global_inputs := alSet g.global_inputs bname .vnone }
          eid e2) := by
      have hKeyF : alHasKey g.global_inputs bname = false := by
        revert hKey
        cases alHasKey g.global_inputs bname <;> simp
      simp +decide only [apply_update, applyUpdateDispatch, hent, pyStr, hbt, hKeyF, hself,
        ite_true, ite_false, if_true, if_false, List.getD_cons_succ, List.getD_cons_zero,
        show splitOnDot "steps.apply.variables.name" =
          ["steps", "apply", "variables", "name"] from rfl]
      rw [hw1]
      dsimp only
      rw [hw2]
    exact ⟨_, happ, tail { g with global_inputs := alSet g.global_inputs bname .vnone } rfl⟩

/-- C5 counterexample: the claim says the wired variable appears in
every other lifecycle step that already exists on the entity; on
`c5Graph` the entity also has a `create` lifecycle step, and after the
blueprint-input update the `create` step carries no variable at all
(only `apply` and `destroy` are wired). -/
theorem blueprint_input_create_untouched_counterexample :
    apply_update c5Graph c5Update = some c5GraphAfter ∧
    alGet c5nsAfter.steps "create" =
      some [("template", .vstr "TempNamespace"), ("version", .vstr "v1")] ∧
    (alGet c5nsAfter.steps "create").map (fun sd => alHasKey sd "variables") = some false :=
  ⟨rfl, rfl, rfl⟩

/-- C5 witness: the amended wiring theorem instantiated on `c5Graph`. -/
theorem blueprint_input_wires_apply_and_destroy_witness :
    alGet c5Graph.entities "ns" = some c5ns ∧
    c5ns.backend_type = "HarnessIACM" ∧
    (∃ g', apply_update c5Graph
        { entity_id := "ns", path := "steps.apply.variables.name"
          value := .vstr "nsname", classification := "blueprint_input" } = some g' ∧
      ∃ e', alGet g'.entities "ns" = some e' ∧
        (∀ k, k ≠ "apply" → k ≠ "destroy" → alGet e'.steps k = alGet c5ns.steps k) ∧
        (∀ k, (k = "apply" ∨ k = "destroy") → ∀ sd, alGet c5ns.steps k = some sd →
          ∃ sd', alGet e'.steps k = some sd' ∧
            ∃ vars', alGet sd' "variables" = some (.vlist vars') ∧
              ∃ d', Value.vdict d' ∈ vars' ∧
                alGet d' "name" = some (.vstr "name") ∧
                alGet d' "value" =
                  some (.vstr ("$\x7b\x7benv.config." ++ "nsname" ++ "\x7d\x7d")))) :=
  ⟨rfl, rfl,
   blueprint_input_wires_apply_and_destroy c5Graph "ns" c5ns "nsname" rfl rfl
     (by
       intro k sd v hk hsd hv
       rcases hk with rfl | rfl
       · rw [show alGet c5ns.steps "apply" =
             some [("pipeline", Value.vstr "RunIaCM"), ("variables", Value.vlist [])] from rfl]
           at hsd
         injection hsd with h
         subst h
         rw [show alGet [("pipeline", Value.vstr "RunIaCM"), ("variables", Value.vlist [])]
             "variables" = some (Value.vlist []) from rfl] at hv
         injection hv with h2
         exact ⟨[], h2.symm⟩
       · rw [show alGet c5ns.steps "destroy" =
             some [("pipeline", Value.vstr "DestroyIaCM"), ("variables", Value.vlist [])] from rfl]
           at hsd
         injection hsd with h
         subst h
         rw [show alGet [("pipeline", Value.vstr "DestroyIaCM"), ("variables", Value.vlist [])]
             "variables" = some (Value.vlist []) from rfl] at hv
         injection hv with h2
         exact ⟨[], h2.symm⟩)⟩

/-- C9: when the single-answer parser returns a truthy error marker for
the pending requirement (and no compound answer was extracted), the
engine re-emits the question produced by the question formulator for
that same requirement and entity — the exact call that asked it — does
not advance the question index, and leaves the whole state (graph
included) unchanged. -/
theorem parse_error_reasks_unchanged (pipelines : List (String × Pipeline))
    (fq : MissingRequirement → Option Entity → String)
    (fcq : String → List MissingRequirement → Option Entity → String)
    (compound_parsed : List (String × CompoundAnswer)) (single_parsed : AnswerParse)
    (new_entities : List EntityData) (s : ConversationState)
    (req : MissingRequirement) (err : String)
    (hidx : s.current_question_index < s.missing_requirements.length)
    (hfall : s.current_entity_group = [] ∨ compound_parsed = [])
    (hreq : s.missing_requirements.get? s.current_question_index = some req)
    (herr : single_parsed.error = some err) (hne : err.toList ≠ []) :
    handle_user_response pipelines fq fcq compound_parsed single_parsed new_entities s =
      some (.question (fq req (alGet s.graph.entities req.entity_id)), s) := by
  unfold handle_user_response
  rw [if_neg (by omega)]
  have hcomp : (!s.current_entity_group.isEmpty && !compound_parsed.isEmpty) = false := by
    rcases hfall with h | h <;> simp [h]
  rw [if_neg (by simp [hcomp]), hreq]
  dsimp only
  have hison : err.toList.isEmpty = false := by
    cases h : err.toList with
    | nil => exact absurd h hne
    | cons c cs => rfl
  have herrt : (match single_parsed.error with
      | some e => !e.toList.isEmpty
      | none => false) = true := by
    rw [herr]
    dsimp only
    rw [hison]
    rfl
  rw [if_pos herrt]

/-- C9 witness: the concrete state `c9State` with an error-marked
parse re-asks the formulated question for `c9Req` and keeps the state. -/
theorem parse_error_reasks_unchanged_witness :
    handle_user_response PIPELINES (fun r _ => "Q:" ++ r.path) (fun eid _ _ => "CQ:" ++ eid)
      [] c9Answer [] c9State =
      some (.question ("Q:" ++ c9Req.path), c9State) :=
  parse_error_reasks_unchanged PIPELINES (fun r _ => "Q:" ++ r.path)
    (fun eid _ _ => "CQ:" ++ eid) [] c9Answer [] c9State c9Req
    "Could not extract valid identifier from answer"
    (by decide) (Or.inl rfl) rfl rfl (by decide)

theorem alHasKey_alSet {α : Type} (d : List (String × α)) (k' k : String) (v : α)
    (h : alHasKey d k = true) : alHasKey (alSet d k' v) k = true := by
  by_cases hk : k = k'
  · subst hk
    unfold alHasKey
    rw [alGet_alSet_self]
    rfl
  · unfold alHasKey at h ⊢
    rw [alGet_alSet_ne _ _ _ _ hk]
    exact h

theorem alHasKey_map {α β : Type} (f : String × α → String × β)
    (hf : ∀ x, (f x).1 = x.1) (k : String) :
    ∀ l : List (String × α), alHasKey (l.map f) k = alHasKey l k := by
  intro l
  induction l with
  | nil => rfl
  | cons x rest ih =>
      unfold alHasKey at ih ⊢
      simp only [List.map_cons, alGet]
      obtain ⟨k', v'⟩ := x
      rw [show (f (k', v')).1 = k' from hf (k', v')]
      by_cases hk : k' = k
      · simp only [if_pos hk]
        cases f (k', v')
        rfl
      · simp only [if_neg hk]
        exact ih

theorem auto_fill_hasKey (pipelines : List (String × Pipeline)) (g : BlueprintGraph)
    (k : String) :
    alHasKey (auto_fill_obvious_values pipelines g).entities k = alHasKey g.entities k := by
  unfold auto_fill_obvious_values
  apply alHasKey_map
  intro x
  dsimp only
  split <;> rfl

theorem autoWireGo_hasKey (k : String) :
    ∀ (keys : List String) (g g' : BlueprintGraph), autoWireGo keys g = some g' →
      alHasKey g.entities k = true → alHasKey g'.entities k = true := by
  intro keys
  induction keys with
  | nil =>
      intro g g' h hk
      unfold autoWireGo at h
      injection h with h
      subst h
      exact hk
  | cons eid rest ih =>
      intro g g' h hk
      unfold autoWireGo at h
      split at h
      · exact ih _ _ h hk
      · split at h
        · exact Option.noConfusion h
        · exact ih _ _ h (alHasKey_alSet _ _ _ _ hk)

theorem auto_wire_hasKey (g g' : BlueprintGraph) (k : String)
    (h : auto_wire_dependencies g = some g')
    (hk : alHasKey g.entities k = true) : alHasKey g'.entities k = true :=
  autoWireGo_hasKey k _ g g' h hk

theorem validation_transition_hasKey (pipelines : List (String × Pipeline))
    (g : BlueprintGraph) (g' : BlueprintGraph) (fs : List MissingRequirement) (k : String)
    (h : validation_transition pipelines g = some (g', fs))
    (hk : alHasKey g.entities k = true) : alHasKey g'.entities k = true := by
  unfold validation_transition at h
  dsimp only at h
  split at h
  · exact Option.noConfusion h
  · next g2 hwire =>
      injection h with h
      rw [Prod.ext_iff] at h
      obtain ⟨h1, _⟩ := h
      subst h1
      exact auto_wire_hasKey _ _ _ hwire (by rw [auto_fill_hasKey]; exact hk)

theorem applyUpdateDispatch_entities (g : BlueprintGraph) (eid : String)
    (entity : Entity) (path : String) (value : Value) (classification : String)
    (r : BlueprintGraph)
    (h : applyUpdateDispatch g eid entity path value classification = some r) :
    r.entities = g.entities ∨ ∃ eid' e', r.entities = alSet g.entities eid' e' := by
  unfold applyUpdateDispatch at h
  dsimp only at h
  repeat' split at h
  all_goals try (injection h with h; subst h; first
    | exact Or.inl rfl
    | exact Or.inr ⟨_, _, rfl⟩)
  all_goals (first
    | (rcases Option.map_eq_some'.mp h with ⟨v, hv, rfl⟩; exact Or.inr ⟨_, _, rfl⟩)
    | exact Option.noConfusion h)

theorem apply_update_entities (g : BlueprintGraph) (u : Update) (r : BlueprintGraph)
    (h : apply_update g u = some r) :
    r.entities = g.entities ∨ ∃ eid e', r.entities = alSet g.entities eid e' := by
  unfold apply_update at h
  dsimp only at h
  repeat' split at h
  all_goals try (injection h with h; subst h; first
    | exact Or.inl rfl
    | exact Or.inr ⟨_, _, rfl⟩)
  all_goals try (rcases Option.map_eq_some'.mp h with ⟨v, hv, rfl⟩; exact Or.inr ⟨_, _, rfl⟩)
  all_goals (have hd := applyUpdateDispatch_entities _ _ _ _ _ _ _ h; exact hd)

theorem apply_update_hasKey (g : BlueprintGraph) (u : Update) (r : BlueprintGraph)
    (k : String) (h : apply_update g u = some r)
    (hk : alHasKey g.entities k = true) : alHasKey r.entities k = true := by
  rcases apply_update_entities g u r h with he | ⟨eid, e', he⟩
  · rw [he]; exact hk
  · rw [he]; exact alHasKey_alSet _ _ _ _ hk

theorem expandOne_hasKey (s : ConversationState) (ed : EntityData) (k : String)
    (hk : alHasKey s.graph.entities k = true) :
    alHasKey (expandOne s ed).1.graph.entities k = true := by
  unfold expandOne generate_entity_id
  dsimp only
  repeat' split
  all_goals first
    | exact hk
    | exact alHasKey_alSet _ _ _ _ hk

theorem foldExpand_hasKey (k : String) :
    ∀ (neds : List EntityData) (acc : ConversationState × Bool),
      alHasKey acc.1.graph.entities k = true →
      alHasKey ((neds.foldl (fun acc ed =>
        let r := expandOne acc.1 ed
        (r.1, acc.2 || r.2)) acc).1.graph.entities) k = true := by
  intro neds
  induction neds with
  | nil => intro acc hk; exact hk
  | cons ed rest ih =>
      intro acc hk
      exact ih _ (expandOne_hasKey acc.1 ed k hk)

theorem validate_and_continue_hasKey (pipelines : List (String × Pipeline))
    (fcq : String → List MissingRequirement → Option Entity → String)
    (s : ConversationState) (resp : EngineResponse) (s' : ConversationState) (k : String)
    (h : validate_and_continue pipelines fcq s = some (resp, s'))
    (hk : alHasKey s.graph.entities k = true) :
    alHasKey s'.graph.entities k = true := by
  unfold validate_and_continue at h
  split at h
  · exact Option.noConfusion h
  · next g2fs hvt =>
      split at h
      · split at h
        · exact Option.noConfusion h
        · injection h with h
          rw [Prod.ext_iff] at h
          obtain ⟨_, h2⟩ := h
          subst h2
          exact validation_transition_hasKey pipelines s.graph _ _ k hvt hk
      · injection h with h
        rw [Prod.ext_iff] at h
        obtain ⟨_, h2⟩ := h
        subst h2
        exact validation_transition_hasKey pipelines s.graph _ _ k hvt hk

theorem handle_entity_expansion_hasKey (pipelines : List (String × Pipeline))
    (fcq : String → List MissingRequirement → Option Entity → String)
    (neds : List EntityData) (s : ConversationState) (resp : EngineResponse)
    (s' : ConversationState) (k : String)
    (h : handle_entity_expansion pipelines fcq neds s = some (resp, s'))
    (hk : alHasKey s.graph.entities k = true) :
    alHasKey s'.graph.entities k = true := by
  unfold handle_entity_expansion at h
  dsimp only at h
  split at h
  · exact validate_and_continue_hasKey pipelines fcq _ resp s' k h
      (foldExpand_hasKey k neds (s, false) hk)
  · injection h with h
    rw [Prod.ext_iff] at h
    obtain ⟨_, h2⟩ := h
    subst h2
    exact foldExpand_hasKey k neds (s, false) hk

theorem run_op_hasKey (pipelines : List (String × Pipeline))
    (fcq : String → List MissingRequirement → Option Entity → String)
    (s : ConversationState) (op : CompilerOp) (s' : ConversationState) (k : String)
    (h : run_op pipelines fcq s op = some s')
    (hk : alHasKey s.graph.entities k = true) :
    alHasKey s'.graph.entities k = true := by
  cases op with
  | applyUpd u =>
      unfold run_op at h
      rcases Option.map_eq_some'.mp h with ⟨g', hg, rfl⟩
      exact apply_update_hasKey s.graph u g' k hg hk
  | discover neds =>
      unfold run_op at h
      rcases Option.map_eq_some'.mp h with ⟨p, hp, rfl⟩
      exact handle_entity_expansion_hasKey pipelines fcq neds s p.1 p.2 k hp hk

/-- C8: after any sequence of update applications and entity-discovery
merges that the compiler completes, the set of entity ids in the graph
is a superset of its previous value: no operation removes an entity. -/
theorem compiler_ops_monotonic (pipelines : List (String × Pipeline))
    (fcq : String → List MissingRequirement → Option Entity → String) :
    ∀ (ops : List CompilerOp) (s s' : ConversationState),
      run_ops pipelines fcq s ops = some s' →
      ∀ k, alHasKey s.graph.entities k = true →
        alHasKey s'.graph.entities k = true := by
  intro ops
  induction ops with
  | nil =>
      intro s s' h k hk
      unfold run_ops at h
      injection h with h
      subst h
      exact hk
  | cons op rest ih =>
      intro s s' h k hk
      unfold run_ops at h
      split at h
      · exact Option.noConfusion h
      · next s1 hop =>
          exact ih _ _ h k (run_op_hasKey pipelines fcq s op s1 k hop hk)

/-- C8 witness: a concrete update followed by an entity discovery; the
pre-existing entity id is still present afterwards. -/
theorem compiler_ops_monotonic_witness :
    run_ops PIPELINES c8fcq c8State0 c8Ops = some c8Final ∧
    alHasKey c8State0.graph.entities "frontend" = true ∧
    alHasKey c8Final.graph.entities "frontend" = true :=
  ⟨rfl, rfl,
   compiler_ops_monotonic PIPELINES c8fcq c8Ops c8State0 c8Final rfl "frontend" rfl⟩

theorem entityFrame_refl (p : String × Entity) : entityFrame p p :=
  ⟨rfl, rfl, rfl, rfl, rfl, rfl, fun _ => rfl, ⟨[], rfl⟩⟩

theorem chainInfraWrites_append (ws1 : List (String × Value)) :
    ∀ (vals v2 : List (String × Value)) (ws2 : List (String × Value)),
      chainInfraWrites vals ws1 = some v2 →
      chainInfraWrites vals (ws1 ++ ws2) = chainInfraWrites v2 ws2 := by
  induction ws1 with
  | nil =>
      intro vals v2 ws2 h
      unfold chainInfraWrites at h
      injection h with h
      subst h
      rfl
  | cons w rest ih =>
      intro vals v2 ws2 h
      obtain ⟨b, v⟩ := w
      simp only [chainInfraWrites] at h
      rw [List.cons_append]
      simp only [chainInfraWrites]
      split at h
      · exact Option.noConfusion h
      · next vals2 heq =>
          exact ih _ _ ws2 h

theorem valuesOnlyInfraWrites_trans {a b c : List (String × Value)}
    (h1 : valuesOnlyInfraWrites a b) (h2 : valuesOnlyInfraWrites b c) :
    valuesOnlyInfraWrites a c := by
  obtain ⟨ws1, hw1⟩ := h1
  obtain ⟨ws2, hw2⟩ := h2
  exact ⟨ws1 ++ ws2, by rw [chainInfraWrites_append ws1 a b ws2 hw1]; exact hw2⟩

theorem entityFrame_trans {p q r : String × Entity}
    (h1 : entityFrame p q) (h2 : entityFrame q r) : entityFrame p r := by
  obtain ⟨a1, a2, a3, a4, a5, a6, a7, a8⟩ := h1
  obtain ⟨b1, b2, b3, b4, b5, b6, b7, b8⟩ := h2
  refine ⟨b1.trans a1, b2.trans a2, b3.trans a3, b4.trans a4, b5.trans a5,
    b6.trans a6, ?_, valuesOnlyInfraWrites_trans a8 b8⟩
  intro hne
  have hq := a7 hne
  have hr := b7 (by rw [a3]; exact hne)
  rw [hr, hq]

theorem forall2_entityFrame_trans :
    ∀ {l1 l2 l3 : List (String × Entity)},
      List.Forall₂ entityFrame l1 l2 → List.Forall₂ entityFrame l2 l3 →
      List.Forall₂ entityFrame l1 l3 := by
  intro l1
  induction l1 with
  | nil =>
      intro l2 l3 h1 h2
      cases h1
      cases h2
      exact List.Forall₂.nil
  | cons x rest ih =>
      intro l2 l3 h1 h2
      cases h1 with
      | cons hx h1rest =>
          cases h2 with
          | cons hy h2rest =>
              exact List.Forall₂.cons (entityFrame_trans hx hy) (ih h1rest h2rest)

theorem forall2_entityFrame_refl (l : List (String × Entity)) :
    List.Forall₂ entityFrame l l := by
  induction l with
  | nil => exact List.Forall₂.nil
  | cons x rest ih => exact List.Forall₂.cons (entityFrame_refl x) ih

theorem forall2_alSet (eid : String) (e e' : Entity) :
    ∀ l : List (String × Entity), alGet l eid = some e →
      entityFrame (eid, e) (eid, e') →
      List.Forall₂ entityFrame l (alSet l eid e') := by
  intro l
  induction l with
  | nil => intro h; exact absurd h (by simp [alGet])
  | cons p rest ih =>
      obtain ⟨k, v⟩ := p
      intro h hf
      by_cases hk : k = eid
      · subst hk
        unfold alGet at h
        rw [if_pos rfl] at h
        injection h with h
        subst h
        unfold alSet
        rw [if_pos rfl]
        refine List.Forall₂.cons ?_ (forall2_entityFrame_refl rest)
        obtain ⟨f1, f2, f3, f4, f5, f6, f7, f8⟩ := hf
        exact ⟨rfl, f2, f3, f4, f5, f6, f7, f8⟩
      · unfold alGet at h
        rw [if_neg hk] at h
        unfold alSet
        rw [if_neg hk]
        exact List.Forall₂.cons (entityFrame_refl _) (ih h hf)

theorem autoWireBindings_frame (g : BlueprintGraph) :
    ∀ (bs : List String) (e e' : Entity), autoWireBindings g e bs = some e' →
      e'.id = e.id ∧ e'.backend_type = e.backend_type ∧ e'.inputs = e.inputs ∧
      e'.steps = e.steps ∧ e'.dependencies = e.dependencies ∧
      valuesOnlyInfraWrites e.values e'.values := by
  intro bs
  induction bs with
  | nil =>
      intro e e' h
      simp only [autoWireBindings] at h
      injection h with h
      subst h
      exact ⟨rfl, rfl, rfl, rfl, rfl, ⟨[], rfl⟩⟩
  | cons rb rest ih =>
      intro e e' h
      simp only [autoWireBindings] at h
      split at h
      · exact ih e e' h
      · split at h
        · exact ih e e' h
        · next expr heq2 =>
            split at h
            · exact Option.noConfusion h
            · next values' heq =>
                obtain ⟨f1, f2, f3, f4, f5, f6⟩ := ih { e with values := values' } e' h
                refine ⟨f1, f2, f3, f4, f5, ?_⟩
                refine valuesOnlyInfraWrites_trans ⟨[(rb, .vstr expr)], ?_⟩ f6
                simp only [chainInfraWrites]
                rw [heq]

theorem autoWireEntity_frame (g : BlueprintGraph) (eid : String) (e e' : Entity)
    (h : autoWireEntity g e = some e') : entityFrame (eid, e) (eid, e') := by
  unfold autoWireEntity at h
  split at h
  · injection h with h
    subst h
    exact entityFrame_refl _
  · next hbt =>
      dsimp only at h
      split at h
      · injection h with h
        subst h
        exact entityFrame_refl _
      · split at h
        · injection h with h
          subst h
          exact entityFrame_refl _
        · next infra heqi =>
            obtain ⟨f1, f2, f3, f4, f5, f6⟩ :=
              autoWireBindings_frame g infra.required_bindings e e' h
            refine ⟨rfl, f1, f2, f3, f4, f5, ?_, f6⟩
            intro hne
            exfalso
            apply hne
            have : (e.backend_type != "Catalog") = false := by
              revert hbt
              cases e.backend_type != "Catalog" <;> simp
            simpa using this

theorem autoWireGo_frame :
    ∀ (keys : List String) (g g' : BlueprintGraph), autoWireGo keys g = some g' →
      g'.global_inputs = g.global_inputs ∧
      List.Forall₂ entityFrame g.entities g'.entities := by
  intro keys
  induction keys with
  | nil =>
      intro g g' h
      unfold autoWireGo at h
      injection h with h
      subst h
      exact ⟨rfl, forall2_entityFrame_refl _⟩
  | cons eid rest ih =>
      intro g g' h
      unfold autoWireGo at h
      split at h
      · exact ih _ _ h
      · next e heqget =>
          split at h
          · exact Option.noConfusion h
          · next e' heqwire =>
              obtain ⟨hg, hf⟩ := ih _ _ h
              refine ⟨hg, ?_⟩
              exact forall2_entityFrame_trans
                (forall2_alSet eid e e' g.entities heqget
                  (autoWireEntity_frame g eid e e' heqwire)) hf

/-- C10: the resolver leaves the global inputs untouched and relates
every entity to its successor by the frame relation: id, backend type,
inputs, steps and dependencies are unchanged, non-Catalog entities are
entirely unchanged, and a Catalog entity's values differ only by
`_set_nested_value` writes at `environment.infra.<binding>` paths. -/
theorem auto_wire_only_writes_infra_bindings (g g' : BlueprintGraph)
    (h : auto_wire_dependencies g = some g') :
    g'.global_inputs = g.global_inputs ∧
    List.Forall₂ entityFrame g.entities g'.entities :=
  autoWireGo_frame _ g g' h

/-- C10 witness: the frame property on the concrete resolver run. -/
theorem auto_wire_only_writes_infra_bindings_witness :
    auto_wire_dependencies c6Graph = some c6Wired ∧
    (c6Wired.global_inputs = c6Graph.global_inputs ∧
     List.Forall₂ entityFrame c6Graph.entities c6Wired.entities) :=
  ⟨rfl, auto_wire_only_writes_infra_bindings c6Graph c6Wired rfl⟩

theorem mapMOpt_forall2 {a b : Type} (f : a → Option b) :
    ∀ (l : List a) (l' : List b), mapMOpt f l = some l' →
      List.Forall₂ (fun x y => f x = some y) l l' := by
  intro l
  induction l with
  | nil =>
      intro l' h
      simp only [mapMOpt] at h
      injection h with h
      subst h
      exact List.Forall₂.nil
  | cons x rest ih =>
      intro l' h
      simp only [mapMOpt] at h
      split at h
      · exact Option.noConfusion h
      · next y hy =>
          split at h
          · exact Option.noConfusion h
          · next ys hys =>
              injection h with h
              subst h
              exact List.Forall₂.cons hy (ih ys hys)

theorem forall2_alGet {a b : Type} (f : String × a → Option (String × b))
    (hf : ∀ x y, f x = some y → y.1 = x.1) :
    ∀ (l : List (String × a)) (l' : List (String × b)),
      List.Forall₂ (fun x y => f x = some y) l l' →
      ∀ k v, alGet l k = some v → ∃ w, alGet l' k = some w ∧ f (k, v) = some (k, w) := by
  intro l
  induction l with
  | nil =>
      intro l' _ k v hv
      exact absurd hv (by simp [alGet])
  | cons x rest ih =>
      intro l' hall k v hv
      cases hall with
      | cons hxy hrest =>
          next y ys =>
            obtain ⟨kx, vx⟩ := x
            obtain ⟨ky, wy⟩ := y
            have hk : ky = kx := hf (kx, vx) (ky, wy) hxy
            subst hk
            unfold alGet at hv ⊢
            by_cases hkk : ky = k
            · rw [if_pos hkk] at hv
              rw [if_pos hkk]
              injection hv with hv
              subst hv
              subst hkk
              exact ⟨wy, rfl, hxy⟩
            · rw [if_neg hkk] at hv
              rw [if_neg hkk]
              exact ih ys hrest k v hv

theorem render_variables_spec (vars : List Value) (rvs : List Value)
    (h : render_variables (.vlist vars) = some rvs) :
    List.Forall₂ varRendered vars rvs := by
  unfold render_variables at h
  have h2 := mapMOpt_forall2 _ _ _ h
  refine h2.imp ?_
  intro v rv hv
  intro d hd
  subst hd
  dsimp only at hv
  split at hv
  · next n val hn hval =>
      injection hv with hv
      subst hv
      exact ⟨n, val, hn, hval, rfl⟩
  · exact Option.noConfusion hv

theorem render_step_dict_spec (sd rsd : List (String × Value))
    (h : mapMOpt (fun kv =>
      if kv.1 == "variables" then
        (render_variables kv.2).map (fun rv => (kv.1, Value.vlist rv))
      else some kv) sd = some rsd) :
    stepRendered sd rsd := by
  intro vars hvars
  have hspec := forall2_alGet
    (fun kv => if kv.1 == "variables" then
        (render_variables kv.2).map (fun rv => (kv.1, Value.vlist rv))
      else some kv)
    (by
      intro x y hy
      dsimp only at hy
      split at hy
      · rcases Option.map_eq_some'.mp hy with ⟨rv, _, rfl⟩
        rfl
      · injection hy with hy
        subst hy
        rfl)
    sd rsd (mapMOpt_forall2 _ sd rsd h) "variables" (.vlist vars) hvars
  obtain ⟨w, hw, hfw⟩ := hspec
  dsimp only at hfw
  rw [if_pos (by decide)] at hfw
  rcases Option.map_eq_some'.mp hfw with ⟨rv, hrv, heq⟩
  injection heq with heq1 heq2
  subst heq2
  exact ⟨rv, hw, render_variables_spec vars rv hrv⟩

theorem render_steps_spec (steps : List (String × List (String × Value)))
    (rsteps : List (String × Value)) (h : render_steps steps = some rsteps) :
    ∀ sn sd, alGet steps sn = some sd →
      ∃ rsd, alGet rsteps sn = some (.vdict rsd) ∧ stepRendered sd rsd := by
  intro sn sd hsd
  unfold render_steps at h
  have hspec := forall2_alGet
    (fun sp => (mapMOpt (fun kv =>
        if kv.1 == "variables" then
          (render_variables kv.2).map (fun rv => (kv.1, Value.vlist rv))
        else some kv) sp.2).map (fun rsd => (sp.1, Value.vdict rsd)))
    (by
      intro x y hy
      rcases Option.map_eq_some'.mp hy with ⟨rsd, _, rfl⟩
      rfl)
    steps rsteps (mapMOpt_forall2 _ steps rsteps h) sn sd hsd
  obtain ⟨w, hw, hfw⟩ := hspec
  rcases Option.map_eq_some'.mp hfw with ⟨rsd, hrsd, heq⟩
  injection heq with heq1 heq2
  subst heq2
  exact ⟨rsd, hw, render_step_dict_spec sd rsd hrsd⟩

theorem render_entity_spec (e : Entity) (re : Value) (h : render_entity e = some re) :
    entityRendered e re := by
  unfold render_entity at h
  rcases Option.map_eq_some'.mp h with ⟨be, hbe, rfl⟩
  constructor
  · intro sn sd hsd
    unfold render_backend at hbe
    split at hbe
    all_goals dsimp only at hbe
    all_goals split at hbe
    all_goals try (exfalso; rename_i hempty; cases hst : e.steps with
      | nil => rw [hst] at hsd; simp [alGet] at hsd
      | cons p rest => rw [hst] at hempty; simp at hempty)
    all_goals
      rcases Option.map_eq_some'.mp hbe with ⟨rs, hrs, rfl⟩
    all_goals
      obtain ⟨rsd, hrsd, hstep⟩ := render_steps_spec e.steps rs hrs sn sd hsd
    all_goals refine ⟨rs, rsd, ?_, hrsd, hstep⟩
    all_goals
      simp [renderedSteps, apply_ite (fun l : List (String × Value) => alGet l "backend"),
        alGet, ite_self]
  · intro hdep
    have hdnil : e.dependencies.isEmpty = false := by
      cases hd : e.dependencies with
      | nil => exact absurd hd hdep
      | cons a rest => rfl
    dsimp only [renderedDeps]
    rw [hdnil]
    by_cases hin : (!e.inputs.isEmpty && e.backend_type == "Catalog") = true
    · simp [hin, alGet]
    · rw [if_neg hin]
      simp [alGet]

/-- C7: for a graph with zero validation findings, the renderer emits
every step stored on each entity and a dependencies record for every
declared dependency, and every stored variable value (in particular
every variable-expression string) appears in the output byte-identical
to its stored form — expressions are never rewritten or evaluated. -/
theorem render_round_trip (g : BlueprintGraph) (doc : Value)
    (_hval : validate_graph PIPELINES g = [])
    (hrender : render_yaml_dict g = some doc) :
    ∃ es, renderedEntities doc = some es ∧
      List.Forall₂ (fun (ee : String × Entity) re => entityRendered ee.2 re)
        g.entities es := by
  unfold render_yaml_dict at hrender
  rcases Option.map_eq_some'.mp hrender with ⟨es, hes, rfl⟩
  refine ⟨es, ?_, ?_⟩
  · simp [renderedEntities, alGet]
  · have h2 := mapMOpt_forall2 (fun ee => render_entity ee.2) g.entities es
      (by unfold render_entities at hes; exact hes)
    refine h2.imp ?_
    intro ee re hx
    exact render_entity_spec ee.2 re hx

/-- C7 witness: the fully valid two-entity graph `c7Graph` (its `apply`
steps carry variable expressions). -/
theorem render_round_trip_witness :
    validate_graph PIPELINES c7Graph = [] ∧
    render_yaml_dict c7Graph = some c7Doc ∧
    (∃ es, renderedEntities c7Doc = some es ∧
      List.Forall₂ (fun (ee : String × Entity) re => entityRendered ee.2 re)
        c7Graph.entities es) :=
  ⟨by decide, rfl, render_round_trip c7Graph c7Doc (by decide) rfl⟩
